import Mathlib

/-!
# sbs::unscoped_stack_vector

A shallow embedding of `src/include/sbs_unscoped_stack_vector.hpp` and the
properties of its operations.

* `std::size_t` values are natural numbers; arithmetic the header performs
  on them is reduced modulo `size_type_modulus`.
* The block returned by `alloca` is a list of cells, one per whole
  `value_type` that fits in the requested byte count.  A cell is either raw
  storage or holds a constructed object.
* Every member function is a function from the object (and its arguments) to
  an `outcome`: a normal return, a propagated exception, a failed `assert`,
  undefined behaviour, or `std::terminate` when an exception meets a
  `noexcept` specification.
* The Boolean argument `dbg` says whether the `assert`s that the header
  guards with `SBS_ENABLE_DEBUG_ASSERTIONS` are in effect (`assertions_active`).
-/

namespace sbs

/-- Number of values of `std::size_t`; `size_type` arithmetic wraps at it. -/
def size_type_modulus : Nat := 2 ^ 64

/-- One `value_type`-sized cell of the reserved block: raw storage, or an
object whose lifetime has begun. -/
inductive slot (T : Type) where
  | uninitialized : slot T
  | live (v : T) : slot T
deriving DecidableEq, Repr

/-- Value category of the expression a caller passes to a `Data&&` forwarding
reference. -/
inductive value_category where
  | lvalue : value_category
  | rvalue : value_category
deriving DecidableEq, Repr

/-- How a call ends.  `returned self r`: normal return with the object left as
`self`.  `thrown e self`: an exception leaves the call, the object is left as
`self`.  `assert_failed`: an `assert` aborted the process.  `undefined`: the
call has undefined behaviour.  `terminated`: an exception tried to leave a
function whose exception specification is `noexcept(true)`, so
`std::terminate` ended the process. -/
inductive outcome (ε σ α : Type) where
  | returned (self : σ) (result : α) : outcome ε σ α
  | thrown (e : ε) (self : σ) : outcome ε σ α
  | assert_failed : outcome ε σ α
  | undefined : outcome ε σ α
  | terminated : outcome ε σ α
deriving DecidableEq, Repr

namespace outcome

variable {ε σ α β : Type}

/-- Sequencing of two calls on the same object: the second runs on the state
the first returned; an exception, a failed assertion or undefined behaviour
in the first ends the sequence. -/
def bind (x : outcome ε σ α) (f : σ → α → outcome ε σ β) : outcome ε σ β :=
  match x with
  | returned self r => f self r
  | thrown e self => thrown e self
  | assert_failed => assert_failed
  | undefined => undefined
  | terminated => terminated

/-- The call as a statement: its result is dropped. -/
def ignore_result (x : outcome ε σ α) : outcome ε σ Unit :=
  x.bind fun self _ => returned self ()

/-- The object after the call, when there is one: after a normal return and
after an exception, but not after an abort or undefined behaviour. -/
def final_state (x : outcome ε σ α) : Option σ :=
  match x with
  | returned self _ => some self
  | thrown _ self => some self
  | assert_failed => none
  | undefined => none
  | terminated => none

/-- A function body under the exception specification `noexcept(b)`: when `b`
is true, an exception that would leave the body ends in `std::terminate`
instead. -/
def noexcept_if (b : Bool) (x : outcome ε σ α) : outcome ε σ α :=
  match b, x with
  | true, thrown _ _ => terminated
  | _, y => y

end outcome

/-- What the class template reads off `value_type` at compile time:
`sizeof(value_type)` and `alignof(T)`. -/
structure value_type_layout where
  sizeof : Nat
  alignof : Nat
  sizeof_pos : 0 < sizeof

/-- The data members `m_data`, `m_max_size`, `m_size`, together with the
contents of the block `m_data` points to (`memory`, cell `i` is `m_data[i]`). -/
structure unscoped_stack_vector (T : Type) where
  m_data : Nat
  m_max_size : Nat
  m_size : Nat
  memory : List (slot T)
deriving DecidableEq, Repr

/-- The argument of `alloca` in the constructor,
`max_size * sizeof(value_type)`, computed in `size_type`. -/
def alloca_request (L : value_type_layout) (max_size : Nat) : Nat :=
  (max_size * L.sizeof) % size_type_modulus

namespace unscoped_stack_vector

variable {T D A ε : Type}

/-- The member initializer list of the constructor:
`m_data(alloca(max_size * sizeof(value_type))), m_max_size(max_size), m_size(0)`.
`alloca_result` is the address `alloca` returned; the block holds as many raw
cells as whole `value_type`s fit in the requested bytes. -/
def initialized (L : value_type_layout) (alloca_result : Nat) (max_size : Nat) :
    unscoped_stack_vector T :=
  { m_data := alloca_result
    m_max_size := max_size
    m_size := 0
    memory := List.replicate (alloca_request L max_size / L.sizeof) slot.uninitialized }

/-- Constructor `unscoped_stack_vector(max_size)`: the member initializer
list, then the three debug assertions. -/
def create (dbg : Bool) (L : value_type_layout) (alloca_result : Nat) (max_size : Nat) :
    outcome ε (unscoped_stack_vector T) Unit :=
  let self : unscoped_stack_vector T := initialized L alloca_result max_size
  if dbg && max_size == 0 then outcome.assert_failed
  else if dbg && self.m_data == 0 then outcome.assert_failed
  else if dbg && self.m_data % L.alignof != 0 then outcome.assert_failed
  else outcome.returned self ()

/-- Member `size()`. -/
def size (self : unscoped_stack_vector T) : Nat := self.m_size

/-- Member `max_size()`. -/
def max_size (self : unscoped_stack_vector T) : Nat := self.m_max_size

/-- Member `data()` (both overloads). -/
def data (self : unscoped_stack_vector T) : Nat := self.m_data

/-- Member `operator[]` (both overloads): the debug assertion, then
`m_data[index]`.  Reading a cell that is outside the block or holds no object
is undefined. -/
def operator_subscript (dbg : Bool) (self : unscoped_stack_vector T) (index : Nat) :
    outcome ε (unscoped_stack_vector T) T :=
  if dbg && !(decide (index < self.size)) then outcome.assert_failed
  else
    match self.memory[index]? with
    | some (slot.live v) => outcome.returned self v
    | _ => outcome.undefined

/-- The text streamed into the `std::out_of_range` that `at_bounds_check`
throws. -/
def out_of_range_message (index size max_size : Nat) : String :=
  "Index " ++ toString index ++ " is not a valid index for an unscoped_stack_vector of size "
    ++ toString size ++ " (max size " ++ toString max_size ++ ")"

/-- Private member `at_bounds_check`. -/
def at_bounds_check (self : unscoped_stack_vector T) (index : Nat) :
    outcome String (unscoped_stack_vector T) Unit :=
  if !(decide (index < self.size)) then
    outcome.thrown (out_of_range_message index self.size self.max_size) self
  else outcome.returned self ()

/-- Member `at` (both overloads): `at_bounds_check(index)` and then
`(*this)[index]`. -/
def at_ (dbg : Bool) (self : unscoped_stack_vector T) (index : Nat) :
    outcome String (unscoped_stack_vector T) T :=
  (at_bounds_check self index).bind fun self1 _ => operator_subscript dbg self1 index

/-- Member `front()`, non-const overload: `(*this)[0]`. -/
def front (dbg : Bool) (self : unscoped_stack_vector T) : outcome ε (unscoped_stack_vector T) T :=
  operator_subscript dbg self 0

/-- Member `back()` (both overloads): `(*this)[size() - 1]`, the subtraction
being done in `size_type`. -/
def back (dbg : Bool) (self : unscoped_stack_vector T) : outcome ε (unscoped_stack_vector T) T :=
  operator_subscript dbg self ((self.size + size_type_modulus - 1) % size_type_modulus)

/-- The constructor argument `push_back` ends up passing to `value_type`:
`std::forward<Data>(data)` keeps the caller's value category when
`std::is_move_constructible_v<value_type>`, otherwise the named parameter
`data`, an lvalue. -/
def forwarded (is_move_constructible : Bool) (cat : value_category) : value_category :=
  if is_move_constructible then cat else value_category.lvalue

/-- Member `push_back(Data&& data)`.  `ctor c d` is the `value_type`
constructor selected for an argument `d` of category `c`: it throws, or gives
the new object and what is left in the argument.  `m_size` is incremented
when the target address is taken, before the object is constructed there. -/
def push_back (dbg : Bool) (is_move_constructible : Bool)
    (ctor : value_category → D → Except ε (T × D))
    (self : unscoped_stack_vector T) (cat : value_category) (data : D) :
    outcome ε (unscoped_stack_vector T) D :=
  if dbg && !(decide (self.size < self.max_size)) then outcome.assert_failed
  else
    let target := self.m_size
    let self1 := { self with m_size := (self.m_size + 1) % size_type_modulus }
    if target < self1.memory.length then
      match ctor (forwarded is_move_constructible cat) data with
      | Except.ok (v, src) =>
          outcome.returned { self1 with memory := self1.memory.set target (slot.live v) } src
      | Except.error e => outcome.thrown e self1
    else outcome.undefined

/-- Member `pop_back()`: `m_data[--m_size].~value_type()`.  The result is the
destructor call made: the index and the object destroyed.  Destroying a cell
that is outside the block or holds no object is undefined. -/
def pop_back (dbg : Bool) (self : unscoped_stack_vector T) :
    outcome ε (unscoped_stack_vector T) (Nat × T) :=
  if dbg && self.size == 0 then outcome.assert_failed
  else
    let self1 := { self with m_size := (self.m_size + size_type_modulus - 1) % size_type_modulus }
    match self1.memory[self1.m_size]? with
    | some (slot.live v) =>
        outcome.returned { self1 with memory := self1.memory.set self1.m_size slot.uninitialized }
          (self1.m_size, v)
    | _ => outcome.undefined

/-- Member `emplace_back(args...)`, declared
`noexcept(noexcept(value_type(std::forward<Args>(args)...)))`: the temporary
`value_type(args...)` is built first (`from_args`), then passed to `push_back`
as an rvalue.  `args_noexcept` is the value of the exception specification:
whether the constructor selected for `args...` is itself `noexcept`. -/
def emplace_back (dbg : Bool) (is_move_constructible : Bool)
    (ctor : value_category → T → Except ε (T × T)) (from_args : A → Except ε T)
    (args_noexcept : Bool)
    (self : unscoped_stack_vector T) (args : A) : outcome ε (unscoped_stack_vector T) Unit :=
  outcome.noexcept_if args_noexcept
    (match from_args args with
      | Except.error e => outcome.thrown e self
      | Except.ok tmp =>
          (push_back dbg is_move_constructible ctor self
            value_category.rvalue tmp).ignore_result)

/-- The loop `for(i = 0; i < initial_size; ++i) push_back(value_type());` of
the second constructor, with `n` iterations left. -/
def push_back_defaults (dbg : Bool) (is_move_constructible : Bool)
    (ctor : value_category → T → Except ε (T × T)) (default_ctor : Except ε T) :
    Nat → unscoped_stack_vector T → outcome ε (unscoped_stack_vector T) Unit
  | 0, self => outcome.returned self ()
  | n + 1, self =>
      match default_ctor with
      | Except.error e => outcome.thrown e self
      | Except.ok tmp =>
          (push_back dbg is_move_constructible ctor self value_category.rvalue tmp).bind
            fun self1 _ => push_back_defaults dbg is_move_constructible ctor default_ctor n self1

/-- Constructor `unscoped_stack_vector(max_size, initial_size)`, declared
`noexcept(std::is_nothrow_default_constructible_v<value_type>)`: delegates to
the first constructor, asserts `max_size >= initial_size`, then runs the
loop.  `nothrow_default` is the value of the exception specification. -/
def create_initial_size (dbg : Bool) (is_move_constructible : Bool) (L : value_type_layout)
    (ctor : value_category → T → Except ε (T × T)) (default_ctor : Except ε T)
    (nothrow_default : Bool)
    (alloca_result : Nat) (max_size initial_size : Nat) :
    outcome ε (unscoped_stack_vector T) Unit :=
  outcome.noexcept_if nothrow_default
    ((create dbg L alloca_result max_size : outcome ε (unscoped_stack_vector T) Unit).bind
      fun self _ =>
        if dbg && !(decide (max_size ≥ initial_size)) then outcome.assert_failed
        else push_back_defaults dbg is_move_constructible ctor default_ctor initial_size self)

/-- End of the object's lifetime.  The class declares no destructor, so the
implicit one runs: it destroys the members `m_data`, `m_max_size` and
`m_size`, which are a pointer and two integers.  The result lists the
`value_type` destructor calls made, by index and object. -/
def destructor (_self : unscoped_stack_vector T) : List (Nat × T) := []

/-- Whether cell `i` of the block holds a constructed object. -/
def live_at (self : unscoped_stack_vector T) (i : Nat) : Bool :=
  match self.memory[i]? with
  | some (slot.live _) => true
  | _ => false

/-- Whether cell `i` lies in the block and is raw storage. -/
def uninitialized_at (self : unscoped_stack_vector T) (i : Nat) : Bool :=
  match self.memory[i]? with
  | some slot.uninitialized => true
  | _ => false

/-- The data-model invariant of a container state: the sizes are `size_type`
values, `size() <= max_size()`, the block has `max_size()` cells, the cells
below `size()` hold objects and the cells from `size()` on are raw. -/
def invariant (self : unscoped_stack_vector T) : Prop :=
  self.m_max_size < size_type_modulus ∧
  self.m_size ≤ self.m_max_size ∧
  self.memory.length = self.m_max_size ∧
  (∀ i, i < self.m_size → live_at self i = true) ∧
  (∀ i, self.m_size ≤ i → i < self.m_max_size → uninitialized_at self i = true)

/-- The state `push_back` leaves when it returns after constructing `v`. -/
def pushed (self : unscoped_stack_vector T) (v : T) : unscoped_stack_vector T :=
  { self with m_size := self.m_size + 1, memory := self.memory.set self.m_size (slot.live v) }

/-- The state `pop_back` leaves when it returns. -/
def popped (self : unscoped_stack_vector T) : unscoped_stack_vector T :=
  { self with m_size := self.m_size - 1
              memory := self.memory.set (self.m_size - 1) slot.uninitialized }

/-- A mutating call on the container; `push_back` is called with a
`value_type` argument of the given value category. -/
inductive operation (T A : Type) where
  | push_back (cat : value_category) (data : T) : operation T A
  | emplace_back (args : A) : operation T A
  | pop_back : operation T A

/-- Runs one mutating call as a statement. -/
def apply (dbg : Bool) (is_move_constructible : Bool)
    (ctor : value_category → T → Except ε (T × T)) (from_args : A → Except ε T)
    (args_noexcept : Bool)
    (self : unscoped_stack_vector T) : operation T A → outcome ε (unscoped_stack_vector T) Unit
  | operation.push_back cat data =>
      (push_back dbg is_move_constructible ctor self cat data).ignore_result
  | operation.emplace_back args =>
      emplace_back dbg is_move_constructible ctor from_args args_noexcept self args
  | operation.pop_back =>
      (pop_back dbg self : outcome ε (unscoped_stack_vector T) (Nat × T)).ignore_result

/-- The documented precondition of a mutating call: `size() < max_size()` for
`push_back` and `emplace_back`, `size() > 0` for `pop_back`. -/
def precondition (self : unscoped_stack_vector T) : operation T A → Prop
  | operation.push_back _ _ => self.size < self.max_size
  | operation.emplace_back _ => self.size < self.max_size
  | operation.pop_back => 0 < self.size

/-- Whether the `value_type` constructors a call runs complete without
throwing. -/
def constructs (is_move_constructible : Bool)
    (ctor : value_category → T → Except ε (T × T)) (from_args : A → Except ε T) :
    operation T A → Bool
  | operation.push_back cat data => (ctor (forwarded is_move_constructible cat) data).isOk
  | operation.emplace_back args =>
      match from_args args with
      | Except.ok tmp =>
          (ctor (forwarded is_move_constructible value_category.rvalue) tmp).isOk
      | Except.error _ => false
  | operation.pop_back => true

/-- The states a container reaches from `start` through mutating calls that
are made with their precondition satisfied and that return. -/
inductive reachable (dbg : Bool) (is_move_constructible : Bool)
    (ctor : value_category → T → Except ε (T × T)) (from_args : A → Except ε T)
    (args_noexcept : Bool)
    (start : unscoped_stack_vector T) : unscoped_stack_vector T → Prop where
  | start : reachable dbg is_move_constructible ctor from_args args_noexcept start start
  | step {s s1 : unscoped_stack_vector T} (op : operation T A) :
      reachable dbg is_move_constructible ctor from_args args_noexcept start s →
      precondition s op →
      apply dbg is_move_constructible ctor from_args args_noexcept s op
        = outcome.returned s1 () →
      reachable dbg is_move_constructible ctor from_args args_noexcept start s1

/-- The statements `push_back(v1); ...; push_back(vk);`, every argument
having value category `cat`. -/
def push_back_all (dbg : Bool) (is_move_constructible : Bool)
    (ctor : value_category → T → Except ε (T × T)) (cat : value_category) :
    List T → unscoped_stack_vector T → outcome ε (unscoped_stack_vector T) Unit
  | [], self => outcome.returned self ()
  | v :: vs, self =>
      (push_back dbg is_move_constructible ctor self cat v).bind
        fun self1 _ => push_back_all dbg is_move_constructible ctor cat vs self1

/-- Runs `read` and then `pop_back()`, `k` times over; the result lists the
values read, in the order they were read. -/
def pop_back_all (dbg : Bool)
    (read : unscoped_stack_vector T → outcome ε (unscoped_stack_vector T) T) :
    Nat → unscoped_stack_vector T → outcome ε (unscoped_stack_vector T) (List T)
  | 0, self => outcome.returned self []
  | k + 1, self =>
      (read self).bind fun self1 x =>
        (pop_back dbg self1 : outcome ε (unscoped_stack_vector T) (Nat × T)).bind fun self2 _ =>
          (pop_back_all dbg read k self2).bind fun self3 xs => outcome.returned self3 (x :: xs)

/-- The container holds exactly the objects `xs`, in index order: the
invariant holds, `size()` is the length of `xs`, and cell `i` holds `xs[i]`. -/
def holds (self : unscoped_stack_vector T) (xs : List T) : Prop :=
  invariant self ∧ self.m_size = xs.length ∧
    ∀ (i : Nat) (v : T), xs[i]? = some v → self.memory[i]? = some (slot.live v)

/-- What a `push_back(data)` call did: it returned, the element at the old
`size()` is `v`, and the argument is left as `src`. -/
def builds (dbg : Bool) (is_move_constructible : Bool)
    (ctor : value_category → D → Except ε (T × D))
    (self : unscoped_stack_vector T) (cat : value_category) (data : D) (v : T) (src : D) :
    Prop :=
  ∃ s1, push_back dbg is_move_constructible ctor self cat data = outcome.returned s1 src ∧
    s1.size = self.size + 1 ∧
    (operator_subscript dbg s1 self.size : outcome ε (unscoped_stack_vector T) T)
      = outcome.returned s1 v

/-- The address `&m_data[index]`: `index` objects of `sizeof(value_type)` bytes
past `m_data`. -/
def address_of (L : value_type_layout) (self : unscoped_stack_vector T) (index : Nat) : Nat :=
  self.m_data + index * L.sizeof

/-- What stands to the left of the subscript in the bodies of `front()`:
`(*this)`, the object, in the non-const overload; `this->operator[]`, the name
of a member function, in the const overload. -/
inductive subscript_operand where
  | object : subscript_operand
  | member_function_name : subscript_operand
deriving DecidableEq, Repr

/-- Meaning of `operand[index]` in a member function body.  On the object it is
a call of `operator[]`.  The name of a member function can only be called:
subscripting it is ill-formed, the expression has no meaning (`none`) and a
function with this body cannot be instantiated. -/
def subscript_expression (dbg : Bool) (self : unscoped_stack_vector T) :
    subscript_operand → Nat → Option (outcome ε (unscoped_stack_vector T) T)
  | subscript_operand.object, index => some (operator_subscript dbg self index)
  | subscript_operand.member_function_name, _ => none

/-- Member `front()`, const overload: `return this->operator[][0];`. -/
def front_const (dbg : Bool) (self : unscoped_stack_vector T) :
    Option (outcome ε (unscoped_stack_vector T) T) :=
  subscript_expression dbg self subscript_operand.member_function_name 0

/-- The `value_type` destructor calls made by a `pop_back()` call, by index
and object destroyed. -/
def pop_back_destructor_calls (dbg : Bool) (self : unscoped_stack_vector T) : List (Nat × T) :=
  match (pop_back dbg self : outcome Unit (unscoped_stack_vector T) (Nat × T)) with
  | outcome.returned _ call => [call]
  | _ => []

/-- A call of a member function that takes the object by reference, made with
or without its precondition. -/
inductive member_call (T A : Type) where
  | operator_subscript (index : Nat) : member_call T A
  | at_ (index : Nat) : member_call T A
  | front : member_call T A
  | back : member_call T A
  | push_back (cat : value_category) (data : T) : member_call T A
  | pop_back : member_call T A
  | emplace_back (args : A) : member_call T A

/-- The object after a member call, when there is one (the call returned or
threw). -/
def state_after (dbg : Bool) (is_move_constructible : Bool)
    (ctor : value_category → T → Except ε (T × T)) (from_args : A → Except ε T)
    (args_noexcept : Bool)
    (self : unscoped_stack_vector T) : member_call T A → Option (unscoped_stack_vector T)
  | member_call.operator_subscript index =>
      (operator_subscript dbg self index : outcome ε (unscoped_stack_vector T) T).final_state
  | member_call.at_ index => (at_ dbg self index).final_state
  | member_call.front => (front dbg self : outcome ε (unscoped_stack_vector T) T).final_state
  | member_call.back => (back dbg self : outcome ε (unscoped_stack_vector T) T).final_state
  | member_call.push_back cat data =>
      (push_back dbg is_move_constructible ctor self cat data).final_state
  | member_call.pop_back =>
      (pop_back dbg self : outcome ε (unscoped_stack_vector T) (Nat × T)).final_state
  | member_call.emplace_back args =>
      (emplace_back dbg is_move_constructible ctor from_args args_noexcept self args).final_state

/-- The states an object goes through from `start` under any sequence of
member calls, whether they return or throw. -/
inductive lifetime (dbg : Bool) (is_move_constructible : Bool)
    (ctor : value_category → T → Except ε (T × T)) (from_args : A → Except ε T)
    (args_noexcept : Bool)
    (start : unscoped_stack_vector T) : unscoped_stack_vector T → Prop where
  | start : lifetime dbg is_move_constructible ctor from_args args_noexcept start start
  | call {s s1 : unscoped_stack_vector T} (c : member_call T A) :
      lifetime dbg is_move_constructible ctor from_args args_noexcept start s →
      state_after dbg is_move_constructible ctor from_args args_noexcept s c = some s1 →
      lifetime dbg is_move_constructible ctor from_args args_noexcept start s1

end unscoped_stack_vector

/-! ## Build configuration -/

/-- The macros the header reads when it is included:
`SBS_ENABLE_DEBUG_ASSERTIONS`, not defined (`none`) or defined as an integer,
and whether `NDEBUG` is defined. -/
structure build_configuration where
  SBS_ENABLE_DEBUG_ASSERTIONS : Option Int
  NDEBUG : Bool
deriving DecidableEq, Repr

/-- Lines 3 to 7 of the header: if the switch is not defined and `NDEBUG` is
not defined, the switch is defined as 1. -/
def switch_after_default (c : build_configuration) : Option Int :=
  match c.SBS_ENABLE_DEBUG_ASSERTIONS with
  | none => if !c.NDEBUG then some 1 else none
  | some v => some v

/-- The condition `#if SBS_ENABLE_DEBUG_ASSERTIONS` that guards every block of
assertions: an identifier that is not defined counts as 0. -/
def guard_taken (c : build_configuration) : Bool :=
  match switch_after_default c with
  | none => false
  | some v => v != 0

/-- The standard macro `assert` of `<cassert>`, which the guarded blocks use:
it checks its argument unless `NDEBUG` is defined where `<cassert>` is
included (line 10 of the header), in which case it expands to nothing. -/
def assert_checks (c : build_configuration) : Bool := !c.NDEBUG

/-- Whether the precondition assertions of the container are in effect: the
guarded blocks are compiled and `assert` checks its argument. -/
def assertions_active (c : build_configuration) : Bool :=
  guard_taken c && assert_checks c

/-! ## Element types used in examples -/

/-- Layout of `uint64_t`. -/
def uint64_layout : value_type_layout := ⟨8, 8, by decide⟩

/-- Layout of `char`. -/
def char_layout : value_type_layout := ⟨1, 1, by decide⟩

/-- A `uint64_t` container of capacity 10 that holds 5, 4, 3. -/
def three_of_ten : unscoped_stack_vector Nat :=
  { m_data := 4096
    m_max_size := 10
    m_size := 3
    memory := [slot.live 5, slot.live 4, slot.live 3, slot.uninitialized, slot.uninitialized,
      slot.uninitialized, slot.uninitialized, slot.uninitialized, slot.uninitialized,
      slot.uninitialized] }

/-- Copy/move construction of a scalar: the new object equals the argument,
which is left as it was. -/
def scalar_ctor : value_category → Nat → Except String (Nat × Nat) :=
  fun _ v => Except.ok (v, v)

/-- A `value_type` whose copy and move constructors always throw. -/
def throwing_ctor : value_category → Nat → Except String (Nat × Nat) :=
  fun _ _ => Except.error "constructor failed"

/-- Copy/move construction of a type that owns a resource, named by a
non-zero number, and is both copyable and movable (such as
`std::shared_ptr`): the copy constructor (lvalue argument) leaves its argument
as it was, the move constructor (rvalue argument) leaves it empty (0). -/
def handle_ctor : value_category → Nat → Except String (Nat × Nat)
  | value_category.lvalue, h => Except.ok (h, h)
  | value_category.rvalue, h => Except.ok (h, 0)

/-- The two-argument constructor `Base(uint8_t a, uint8_t b) : data(a + b)` of
the test types, `a` and `b` being promoted to `int` before the addition. -/
def base_from_args : Nat × Nat → Except String Nat :=
  fun ab => Except.ok (ab.1 % 256 + ab.2 % 256)

end sbs

/-! ## Auxiliary facts about the operations -/

namespace sbs
namespace unscoped_stack_vector

variable {T D A ε : Type}

theorem noexcept_if_returned {σ α : Type} (b : Bool) (s : σ) (r : α) :
    outcome.noexcept_if b (outcome.returned s r : outcome ε σ α) = outcome.returned s r := by
  cases b <;> rfl

theorem noexcept_if_eq_returned {σ α : Type} {b : Bool} {x : outcome ε σ α} {s : σ} {r : α}
    (h : outcome.noexcept_if b x = outcome.returned s r) : x = outcome.returned s r := by
  cases b <;> cases x <;> first | exact h | cases h

theorem final_state_noexcept_if {σ α : Type} {b : Bool} {x : outcome ε σ α} {s : σ}
    (h : (outcome.noexcept_if b x).final_state = some s) : x.final_state = some s := by
  cases b <;> cases x <;> first | exact h | cases h

theorem memory_of_live_at {self : unscoped_stack_vector T} {i : Nat}
    (h : live_at self i = true) : ∃ v, self.memory[i]? = some (slot.live v) := by
  unfold live_at at h
  split at h
  · exact ⟨_, by assumption⟩
  · cases h

theorem memory_of_uninitialized_at {self : unscoped_stack_vector T} {i : Nat}
    (h : uninitialized_at self i = true) : self.memory[i]? = some slot.uninitialized := by
  unfold uninitialized_at at h
  split at h
  · assumption
  · cases h

theorem live_at_of_memory {self : unscoped_stack_vector T} {i : Nat} {v : T}
    (h : self.memory[i]? = some (slot.live v)) : live_at self i = true := by
  simp [live_at, h]

theorem uninitialized_at_of_memory {self : unscoped_stack_vector T} {i : Nat}
    (h : self.memory[i]? = some slot.uninitialized) : uninitialized_at self i = true := by
  simp [uninitialized_at, h]

/-- Reading a cell that holds an object, at an index below `size()`. -/
theorem operator_subscript_of_memory (dbg : Bool) {self : unscoped_stack_vector T} {i : Nat}
    {v : T} (hi : i < self.size) (h : self.memory[i]? = some (slot.live v)) :
    (operator_subscript dbg self i : outcome ε (unscoped_stack_vector T) T)
      = outcome.returned self v := by
  simp [operator_subscript, hi, h]

theorem push_back_returns (dbg mc : Bool) (ctor : value_category → D → Except ε (T × D))
    (self : unscoped_stack_vector T) (cat : value_category) (data : D) (v : T) (src : D)
    (hinv : invariant self) (hpre : self.size < self.max_size)
    (hctor : ctor (forwarded mc cat) data = Except.ok (v, src)) :
    push_back dbg mc ctor self cat data = outcome.returned (pushed self v) src := by
  obtain ⟨hmax, hle, hlen, hlive, hraw⟩ := hinv
  simp only [size, max_size] at hpre
  have h1 : (self.m_size + 1) % size_type_modulus = self.m_size + 1 :=
    Nat.mod_eq_of_lt (by omega)
  simp [push_back, pushed, size, max_size, hpre, hctor, h1, hlen]

theorem push_back_throws (dbg mc : Bool) (ctor : value_category → D → Except ε (T × D))
    (self : unscoped_stack_vector T) (cat : value_category) (data : D) (e : ε)
    (hinv : invariant self) (hpre : self.size < self.max_size)
    (hctor : ctor (forwarded mc cat) data = Except.error e) :
    push_back dbg mc ctor self cat data
      = outcome.thrown e { self with m_size := self.m_size + 1 } := by
  obtain ⟨hmax, hle, hlen, hlive, hraw⟩ := hinv
  simp only [size, max_size] at hpre
  have h1 : (self.m_size + 1) % size_type_modulus = self.m_size + 1 :=
    Nat.mod_eq_of_lt (by omega)
  simp [push_back, size, max_size, hpre, hctor, h1, hlen]

theorem pop_back_returns (dbg : Bool) (self : unscoped_stack_vector T)
    (hinv : invariant self) (hpre : 0 < self.size) :
    ∃ v, self.memory[self.size - 1]? = some (slot.live v) ∧
      (pop_back dbg self : outcome ε (unscoped_stack_vector T) (Nat × T))
        = outcome.returned (popped self) (self.size - 1, v) := by
  obtain ⟨hmax, hle, hlen, hlive, hraw⟩ := hinv
  simp only [size] at hpre ⊢
  obtain ⟨v, hv⟩ := memory_of_live_at (hlive (self.m_size - 1) (by omega))
  have h1 : (self.m_size + size_type_modulus - 1) % size_type_modulus = self.m_size - 1 := by
    have : self.m_size + size_type_modulus - 1 = (self.m_size - 1) + size_type_modulus := by
      omega
    rw [this, Nat.add_mod_right]
    exact Nat.mod_eq_of_lt (by omega)
  refine ⟨v, hv, ?_⟩
  have hne : self.m_size ≠ 0 := by omega
  simp [pop_back, popped, size, hne, h1, hv]

theorem invariant_pushed {self : unscoped_stack_vector T} (v : T)
    (hinv : invariant self) (hpre : self.size < self.max_size) : invariant (pushed self v) := by
  obtain ⟨hmax, hle, hlen, hlive, hraw⟩ := hinv
  simp only [size, max_size] at hpre
  refine ⟨hmax, ?_, ?_, ?_, ?_⟩
  · simp only [pushed]; omega
  · simp [pushed, hlen]
  · intro i hi
    simp only [pushed] at hi
    by_cases h : i = self.m_size
    · subst h
      apply live_at_of_memory (v := v)
      simp [pushed, List.getElem?_set, hlen, hpre]
    · obtain ⟨w, hw⟩ := memory_of_live_at (hlive i (by omega))
      apply live_at_of_memory (v := w)
      simp only [pushed]
      rw [List.getElem?_set_ne (Ne.symm h)]
      exact hw
  · intro i hi hi2
    simp only [pushed] at hi hi2
    apply uninitialized_at_of_memory
    simp only [pushed]
    rw [List.getElem?_set_ne (by omega)]
    exact memory_of_uninitialized_at (hraw i (by omega) hi2)

theorem invariant_popped {self : unscoped_stack_vector T}
    (hinv : invariant self) (hpre : 0 < self.size) : invariant (popped self) := by
  obtain ⟨hmax, hle, hlen, hlive, hraw⟩ := hinv
  simp only [size] at hpre
  refine ⟨hmax, ?_, ?_, ?_, ?_⟩
  · simp only [popped]; omega
  · simp [popped, hlen]
  · intro i hi
    simp only [popped] at hi
    obtain ⟨w, hw⟩ := memory_of_live_at (hlive i (by omega))
    apply live_at_of_memory (v := w)
    simp only [popped]
    rw [List.getElem?_set_ne (by omega)]
    exact hw
  · intro i hi hi2
    simp only [popped] at hi hi2
    apply uninitialized_at_of_memory
    by_cases h : i = self.m_size - 1
    · subst h
      simp only [popped]
      rw [List.getElem?_set_self (by omega)]
    · simp only [popped]
      rw [List.getElem?_set_ne (Ne.symm h)]
      exact memory_of_uninitialized_at (hraw i (by omega) hi2)

theorem push_back_returned_inv {dbg mc : Bool} {ctor : value_category → D → Except ε (T × D)}
    {self s1 : unscoped_stack_vector T} {cat : value_category} {data src : D}
    (hinv : invariant self) (hpre : self.size < self.max_size)
    (h : push_back dbg mc ctor self cat data = outcome.returned s1 src) :
    ∃ v, ctor (forwarded mc cat) data = Except.ok (v, src) ∧ s1 = pushed self v := by
  cases hc : ctor (forwarded mc cat) data with
  | error e =>
      rw [push_back_throws dbg mc ctor self cat data e hinv hpre hc] at h
      cases h
  | ok p =>
      obtain ⟨v, src1⟩ := p
      rw [push_back_returns dbg mc ctor self cat data v src1 hinv hpre hc] at h
      cases h
      exact ⟨v, rfl, rfl⟩

theorem isOk_iff {α : Type} (x : Except ε α) : x.isOk = true ↔ ∃ a, x = Except.ok a := by
  cases x with
  | error e => simp [Except.isOk, Except.toBool]
  | ok a => simp [Except.isOk, Except.toBool]

/-- With the invariant and its precondition, a mutating call whose
constructors do not throw returns. -/
theorem apply_returns (dbg mc : Bool) (ctor : value_category → T → Except ε (T × T))
    (from_args : A → Except ε T) (args_noexcept : Bool) (self : unscoped_stack_vector T)
    (op : operation T A) (hinv : invariant self) (hpre : precondition self op)
    (hc : constructs mc ctor from_args op = true) :
    ∃ s1, apply dbg mc ctor from_args args_noexcept self op = outcome.returned s1 () := by
  cases op with
  | push_back cat data =>
      simp only [constructs, isOk_iff] at hc
      obtain ⟨⟨v, src⟩, hv⟩ := hc
      exact ⟨pushed self v, by
        simp [apply, push_back_returns dbg mc ctor self cat data v src hinv hpre hv,
          outcome.ignore_result, outcome.bind]⟩
  | emplace_back args =>
      simp only [constructs] at hc
      cases ha : from_args args with
      | error e => simp [ha] at hc
      | ok tmp =>
          simp only [ha, isOk_iff] at hc
          obtain ⟨⟨v, src⟩, hv⟩ := hc
          exact ⟨pushed self v, by
            simp [apply, emplace_back, ha,
              push_back_returns dbg mc ctor self value_category.rvalue tmp v src hinv hpre hv,
              outcome.ignore_result, outcome.bind, noexcept_if_returned]⟩
  | pop_back =>
      obtain ⟨v, _, hv⟩ := pop_back_returns (ε := ε) dbg self hinv hpre
      exact ⟨popped self, by simp [apply, hv, outcome.ignore_result, outcome.bind]⟩

/-- The state a mutating call returns, given the invariant and its
precondition. -/
theorem apply_returned_inv {dbg mc : Bool} {ctor : value_category → T → Except ε (T × T)}
    {from_args : A → Except ε T} {args_noexcept : Bool} {self s1 : unscoped_stack_vector T}
    {op : operation T A}
    (hinv : invariant self) (hpre : precondition self op)
    (h : apply dbg mc ctor from_args args_noexcept self op = outcome.returned s1 ()) :
    (op ≠ operation.pop_back → ∃ v, s1 = pushed self v) ∧
    (op = operation.pop_back → s1 = popped self) := by
  cases op with
  | push_back cat data =>
      refine ⟨fun _ => ?_, fun h0 => by cases h0⟩
      simp only [apply, outcome.ignore_result] at h
      cases hp : push_back dbg mc ctor self cat data with
      | returned s2 src =>
          obtain ⟨v, _, hv⟩ := push_back_returned_inv hinv hpre hp
          rw [hp] at h
          simp only [outcome.bind] at h
          cases h
          exact ⟨v, hv⟩
      | thrown e s2 => rw [hp] at h; cases h
      | assert_failed => rw [hp] at h; cases h
      | undefined => rw [hp] at h; cases h
      | terminated => rw [hp] at h; cases h
  | emplace_back args =>
      refine ⟨fun _ => ?_, fun h0 => by cases h0⟩
      simp only [apply, emplace_back] at h
      replace h := noexcept_if_eq_returned h
      cases ha : from_args args with
      | error e => rw [ha] at h; cases h
      | ok tmp =>
          rw [ha] at h
          simp only [outcome.ignore_result] at h
          cases hp : push_back dbg mc ctor self value_category.rvalue tmp with
          | returned s2 src =>
              obtain ⟨v, _, hv⟩ := push_back_returned_inv hinv hpre hp
              rw [hp] at h
              simp only [outcome.bind] at h
              cases h
              exact ⟨v, hv⟩
          | thrown e s2 => rw [hp] at h; cases h
          | assert_failed => rw [hp] at h; cases h
          | undefined => rw [hp] at h; cases h
          | terminated => rw [hp] at h; cases h
  | pop_back =>
      refine ⟨fun h0 => absurd rfl h0, fun _ => ?_⟩
      obtain ⟨v, _, hv⟩ := pop_back_returns (ε := ε) dbg self hinv hpre
      simp only [apply, hv, outcome.ignore_result, outcome.bind] at h
      cases h
      rfl

theorem invariant_apply {dbg mc : Bool} {ctor : value_category → T → Except ε (T × T)}
    {from_args : A → Except ε T} {args_noexcept : Bool} {self s1 : unscoped_stack_vector T}
    {op : operation T A}
    (hinv : invariant self) (hpre : precondition self op)
    (h : apply dbg mc ctor from_args args_noexcept self op = outcome.returned s1 ()) :
    invariant s1 := by
  obtain ⟨h1, h2⟩ := apply_returned_inv hinv hpre h
  by_cases hop : op = operation.pop_back
  · rw [h2 hop]
    subst hop
    exact invariant_popped hinv hpre
  · obtain ⟨v, hv⟩ := h1 hop
    rw [hv]
    refine invariant_pushed v hinv ?_
    cases op with
    | push_back cat data => exact hpre
    | emplace_back args => exact hpre
    | pop_back => exact absurd rfl hop

theorem invariant_reachable {dbg mc : Bool} {ctor : value_category → T → Except ε (T × T)}
    {from_args : A → Except ε T} {args_noexcept : Bool} {s0 s : unscoped_stack_vector T}
    (h0 : invariant s0) (h : reachable dbg mc ctor from_args args_noexcept s0 s) :
    invariant s := by
  induction h with
  | start => exact h0
  | step op _ hpre happ ih => exact invariant_apply ih hpre happ

theorem max_size_reachable {dbg mc : Bool} {ctor : value_category → T → Except ε (T × T)}
    {from_args : A → Except ε T} {args_noexcept : Bool} {s0 s : unscoped_stack_vector T}
    (h0 : invariant s0) (h : reachable dbg mc ctor from_args args_noexcept s0 s) :
    s.max_size = s0.max_size ∧ s.data = s0.data := by
  induction h with
  | start => exact ⟨rfl, rfl⟩
  | @step s2 s3 op hr hpre happ ih =>
      obtain ⟨h1, h2⟩ := apply_returned_inv (invariant_reachable h0 hr) hpre happ
      by_cases hop : op = operation.pop_back
      · rw [h2 hop]; exact ih
      · obtain ⟨v, hv⟩ := h1 hop
        rw [hv]; exact ih

theorem create_returns (dbg : Bool) (L : value_type_layout) (addr N : Nat)
    (hN : 0 < N) (hnull : addr ≠ 0) (halign : addr % L.alignof = 0) :
    (create dbg L addr N : outcome ε (unscoped_stack_vector T) Unit) =
      outcome.returned (initialized L addr N) () := by
  have : N ≠ 0 := by omega
  simp [create, initialized, this, hnull, halign]

theorem alloca_request_cells (L : value_type_layout) (N : Nat)
    (hfit : N * L.sizeof < size_type_modulus) : alloca_request L N / L.sizeof = N := by
  unfold alloca_request
  rw [Nat.mod_eq_of_lt hfit]
  exact Nat.mul_div_cancel _ L.sizeof_pos

theorem invariant_created (L : value_type_layout) (addr N : Nat)
    (hfit : N * L.sizeof < size_type_modulus) :
    invariant (initialized L addr N : unscoped_stack_vector T) := by
  unfold initialized
  rw [alloca_request_cells L N hfit]
  have hpos := L.sizeof_pos
  refine ⟨?_, Nat.zero_le _, by simp, ?_, ?_⟩
  · show N < size_type_modulus
    calc N = N * 1 := (Nat.mul_one N).symm
      _ ≤ N * L.sizeof := Nat.mul_le_mul_left N hpos
      _ < size_type_modulus := hfit
  · intro i hi
    exact absurd hi (Nat.not_lt_zero i)
  · intro i _ hi
    apply uninitialized_at_of_memory
    simp only at hi
    simp [List.getElem?_replicate, hi]

theorem holds_invariant {self : unscoped_stack_vector T} {xs : List T} (h : holds self xs) :
    invariant self := h.1

theorem holds_size {self : unscoped_stack_vector T} {xs : List T} (h : holds self xs) :
    self.size = xs.length := h.2.1

theorem holds_memory {self : unscoped_stack_vector T} {xs : List T} (h : holds self xs)
    (i : Nat) (v : T) (hv : xs[i]? = some v) : self.memory[i]? = some (slot.live v) :=
  h.2.2 i v hv

theorem holds_initialized (L : value_type_layout) (addr N : Nat)
    (hfit : N * L.sizeof < size_type_modulus) :
    holds (initialized L addr N : unscoped_stack_vector T) [] :=
  ⟨invariant_created L addr N hfit, rfl, fun i v h => by simp at h⟩

theorem holds_pushed {self : unscoped_stack_vector T} {xs : List T} (v : T)
    (h : holds self xs) (hpre : self.size < self.max_size) :
    holds (pushed self v) (xs ++ [v]) := by
  obtain ⟨hinv, hsz, hmem⟩ := h
  refine ⟨invariant_pushed v hinv hpre, by simp [pushed, hsz], ?_⟩
  intro i w hw
  have hlen : self.memory.length = self.m_max_size := hinv.2.2.1
  simp only [size, max_size] at hpre
  by_cases hi : i < xs.length
  · rw [List.getElem?_append_left hi] at hw
    simp only [pushed]
    rw [List.getElem?_set_ne (by omega)]
    exact hmem i w hw
  · have hi2 : i = xs.length := by
      by_contra hne
      have : xs.length + 1 ≤ i := by omega
      have hnone : (xs ++ [v])[i]? = none := by
        apply List.getElem?_eq_none
        simp; omega
      rw [hnone] at hw
      cases hw
    subst hi2
    simp at hw
    subst hw
    simp only [pushed, hsz]
    rw [List.getElem?_set_self (by omega)]

theorem holds_popped {self : unscoped_stack_vector T} {xs : List T} {v : T}
    (h : holds self (xs ++ [v])) : holds (popped self) xs := by
  obtain ⟨hinv, hsz, hmem⟩ := h
  have hsz2 : self.m_size = xs.length + 1 := by simpa using hsz
  refine ⟨invariant_popped hinv (by simp only [size]; omega), by simp [popped, hsz2], ?_⟩
  intro i w hw
  have hi : i < xs.length := by
    by_contra hne
    rw [List.getElem?_eq_none (by omega)] at hw
    cases hw
  simp only [popped]
  rw [List.getElem?_set_ne (by omega)]
  apply hmem
  rw [List.getElem?_append_left hi]
  exact hw

theorem holds_last {self : unscoped_stack_vector T} {xs : List T} {v : T}
    (h : holds self (xs ++ [v])) :
    0 < self.size ∧ self.memory[self.size - 1]? = some (slot.live v) := by
  obtain ⟨hinv, hsz, hmem⟩ := h
  have hsz2 : self.m_size = xs.length + 1 := by simpa using hsz
  refine ⟨by simp only [size]; omega, ?_⟩
  apply hmem
  simp [size, hsz2]

theorem operator_subscript_holds (dbg : Bool) {self : unscoped_stack_vector T} {xs : List T}
    (h : holds self xs) (i : Nat) (hi : i < xs.length) :
    (operator_subscript dbg self i : outcome ε (unscoped_stack_vector T) T)
      = outcome.returned self (xs.get ⟨i, hi⟩) := by
  apply operator_subscript_of_memory
  · rw [holds_size h]; exact hi
  · apply holds_memory h
    simp [List.getElem?_eq_getElem hi]

theorem size_sub_one_wrap {self : unscoped_stack_vector T} (hinv : invariant self)
    (hpre : 0 < self.size) :
    (self.size + size_type_modulus - 1) % size_type_modulus = self.size - 1 := by
  obtain ⟨hmax, hle, _⟩ := hinv
  simp only [size] at hpre ⊢
  have : self.m_size + size_type_modulus - 1 = (self.m_size - 1) + size_type_modulus := by
    omega
  rw [this, Nat.add_mod_right]
  exact Nat.mod_eq_of_lt (by omega)

theorem back_holds (dbg : Bool) {self : unscoped_stack_vector T} {xs : List T} {v : T}
    (h : holds self (xs ++ [v])) :
    (back dbg self : outcome ε (unscoped_stack_vector T) T) = outcome.returned self v := by
  obtain ⟨hpos, hmem⟩ := holds_last h
  unfold back
  rw [size_sub_one_wrap (holds_invariant h) hpos]
  exact operator_subscript_of_memory dbg (by omega) hmem

theorem push_back_all_holds (dbg mc : Bool) (ctor : value_category → T → Except ε (T × T))
    (cat : value_category) (vs : List T) :
    ∀ (self : unscoped_stack_vector T) (pre : List T), holds self pre →
      pre.length + vs.length ≤ self.max_size →
      (∀ v ∈ vs, ∃ src, ctor (forwarded mc cat) v = Except.ok (v, src)) →
      ∃ s1, push_back_all dbg mc ctor cat vs self = outcome.returned s1 () ∧
        holds s1 (pre ++ vs) ∧ s1.max_size = self.max_size ∧ s1.data = self.data := by
  induction vs with
  | nil =>
      intro self pre h _ _
      exact ⟨self, rfl, by simpa using h, rfl, rfl⟩
  | cons v vs ih =>
      intro self pre h hcap hctor
      obtain ⟨src, hsrc⟩ := hctor v (List.mem_cons_self v vs)
      have hpre : self.size < self.max_size := by
        rw [holds_size h]
        simp only [List.length_cons] at hcap
        omega
      have hstep :=
        push_back_returns dbg mc ctor self cat v v src (holds_invariant h) hpre hsrc
      obtain ⟨s1, hs1, hh, hm, hd⟩ := ih (pushed self v) (pre ++ [v]) (holds_pushed v h hpre)
        (by simp only [List.length_append, List.length_cons, List.length_nil] at hcap ⊢
            simp only [max_size, pushed] at hcap ⊢
            omega)
        (fun w hw => hctor w (List.mem_cons_of_mem v hw))
      refine ⟨s1, ?_, by simpa using hh, hm, hd⟩
      simp only [push_back_all, hstep, outcome.bind]
      exact hs1

theorem push_back_defaults_holds (dbg mc : Bool) (ctor : value_category → T → Except ε (T × T))
    (default_ctor : Except ε T) (d src : T) (hdef : default_ctor = Except.ok d)
    (hctor : ctor (forwarded mc value_category.rvalue) d = Except.ok (d, src)) (n : Nat) :
    ∀ (self : unscoped_stack_vector T) (pre : List T), holds self pre →
      pre.length + n ≤ self.max_size →
      ∃ s1, push_back_defaults dbg mc ctor default_ctor n self = outcome.returned s1 () ∧
        holds s1 (pre ++ List.replicate n d) ∧ s1.max_size = self.max_size ∧
        s1.data = self.data := by
  subst hdef
  induction n with
  | zero =>
      intro self pre h _
      exact ⟨self, rfl, by simpa using h, rfl, rfl⟩
  | succ n ih =>
      intro self pre h hcap
      have hpre : self.size < self.max_size := by
        rw [holds_size h]
        omega
      have hstep := push_back_returns dbg mc ctor self value_category.rvalue d d src
        (holds_invariant h) hpre hctor
      obtain ⟨s1, hs1, hh, hm, hd⟩ := ih (pushed self d) (pre ++ [d]) (holds_pushed d h hpre)
        (by simp only [List.length_append, List.length_cons, List.length_nil]
            simp only [max_size, pushed] at hcap ⊢
            omega)
      refine ⟨s1, ?_, ?_, hm, hd⟩
      · simp only [push_back_defaults, hstep, outcome.bind]
        exact hs1
      · simpa [List.replicate_succ] using hh

theorem pop_back_all_holds (dbg : Bool)
    (read : unscoped_stack_vector T → outcome ε (unscoped_stack_vector T) T)
    (hread : ∀ (s : unscoped_stack_vector T) (xs : List T) (v : T),
      holds s (xs ++ [v]) → read s = outcome.returned s v)
    (pre : List T) (vs : List T) :
    ∀ (self : unscoped_stack_vector T), holds self (pre ++ vs) →
      ∃ s1, pop_back_all dbg read vs.length self = outcome.returned s1 vs.reverse ∧
        holds s1 pre := by
  induction vs using List.reverseRecOn with
  | nil =>
      intro self h
      exact ⟨self, rfl, by simpa using h⟩
  | append_singleton vs v ih =>
      intro self h
      have h2 : holds self ((pre ++ vs) ++ [v]) := by simpa using h
      obtain ⟨hpos, hmem⟩ := holds_last h2
      obtain ⟨w, hw, hpop⟩ := pop_back_returns (ε := ε) dbg self (holds_invariant h2) hpos
      obtain ⟨s1, hs1, hh⟩ := ih (popped self) (holds_popped h2)
      refine ⟨s1, ?_, hh⟩
      simp only [List.length_append, List.length_cons, List.length_nil, pop_back_all,
        hread self (pre ++ vs) v h2, outcome.bind, hpop, hs1]
      simp

theorem create_initial_size_returns (dbg mc : Bool) (L : value_type_layout)
    (ctor : value_category → T → Except ε (T × T)) (default_ctor : Except ε T)
    (nothrow_default : Bool) (addr N K : Nat) (d src : T)
    (hN : 0 < N) (hK : K ≤ N) (hfit : N * L.sizeof < size_type_modulus)
    (hnull : addr ≠ 0) (halign : addr % L.alignof = 0)
    (hdef : default_ctor = Except.ok d)
    (hctor : ctor (forwarded mc value_category.rvalue) d = Except.ok (d, src)) :
    ∃ s, create_initial_size dbg mc L ctor default_ctor nothrow_default addr N K
        = outcome.returned s () ∧
      holds s (List.replicate K d) ∧ s.max_size = N ∧ s.data = addr := by
  obtain ⟨s, hs, hh, hm, hd⟩ := push_back_defaults_holds dbg mc ctor default_ctor d src hdef
    hctor K (initialized L addr N) [] (holds_initialized L addr N hfit)
    (by simpa [max_size, initialized] using hK)
  refine ⟨s, ?_, by simpa using hh, hm, hd⟩
  have hge : K ≤ N := hK
  simp only [create_initial_size, create_returns dbg L addr N hN hnull halign, outcome.bind]
  simp [hge, hs, noexcept_if_returned]

theorem at_out_of_range (dbg : Bool) (self : unscoped_stack_vector T) (i : Nat)
    (hi : self.size ≤ i) :
    at_ dbg self i
      = outcome.thrown (out_of_range_message i self.size self.max_size) self := by
  have : ¬ i < self.size := by omega
  simp [at_, at_bounds_check, this, outcome.bind]

theorem at_in_range (dbg : Bool) (self : unscoped_stack_vector T) (i : Nat)
    (hi : i < self.size) : at_ dbg self i = operator_subscript dbg self i := by
  simp [at_, at_bounds_check, hi, outcome.bind]

theorem slots_of_invariant {self : unscoped_stack_vector T} (hinv : invariant self) :
    (∀ i, live_at self i = true ↔ i < self.size) ∧
    (∀ i, uninitialized_at self i = true ↔ self.size ≤ i ∧ i < self.max_size) := by
  obtain ⟨hmax, hle, hlen, hlive, hraw⟩ := hinv
  simp only [size, max_size]
  constructor
  · intro i
    constructor
    · intro h
      by_contra hn
      obtain ⟨v, hv⟩ := memory_of_live_at h
      by_cases hi : i < self.m_max_size
      · have := memory_of_uninitialized_at (hraw i (by omega) hi)
        rw [this] at hv
        cases hv
      · rw [List.getElem?_eq_none (by omega)] at hv
        cases hv
    · exact hlive i
  · intro i
    constructor
    · intro h
      have hu := memory_of_uninitialized_at h
      constructor
      · by_contra hn
        obtain ⟨v, hv⟩ := memory_of_live_at (hlive i (by omega))
        rw [hv] at hu
        cases hu
      · by_contra hn
        rw [List.getElem?_eq_none (by omega)] at hu
        cases hu
    · intro h
      exact hraw i h.1 h.2

/-! ## The claims -/

/-- C1: in a container state (one that satisfies the data-model invariant)
with `size() < max_size()`, `push_back` of an argument from which the selected
constructor builds `v` returns; afterwards `size()` is the old size plus 1,
`max_size()` is unchanged, the element at index (old size) is `v`, and every
index below the old size reads the same element as before. -/
theorem push_back_postcondition (dbg mc : Bool) (ctor : value_category → D → Except ε (T × D))
    (self : unscoped_stack_vector T) (cat : value_category) (data : D) (v : T) (src : D)
    (hinv : invariant self) (hpre : self.size < self.max_size)
    (hctor : ctor (forwarded mc cat) data = Except.ok (v, src)) :
    ∃ s1, push_back dbg mc ctor self cat data = outcome.returned s1 src ∧
      s1.size = self.size + 1 ∧ s1.max_size = self.max_size ∧
      (operator_subscript dbg s1 self.size : outcome ε (unscoped_stack_vector T) T)
        = outcome.returned s1 v ∧
      ∀ i, i < self.size → ∃ w,
        (operator_subscript dbg self i : outcome ε (unscoped_stack_vector T) T)
          = outcome.returned self w ∧
        (operator_subscript dbg s1 i : outcome ε (unscoped_stack_vector T) T)
          = outcome.returned s1 w := by
  refine ⟨pushed self v, push_back_returns dbg mc ctor self cat data v src hinv hpre hctor,
    rfl, rfl, ?_, ?_⟩
  · have hlen : self.memory.length = self.m_max_size := hinv.2.2.1
    apply operator_subscript_of_memory
    · simp [size, pushed]
    · simp only [pushed, size]
      simp only [size, max_size] at hpre
      rw [List.getElem?_set_self (by omega)]
  · intro i hi
    obtain ⟨w, hw⟩ := memory_of_live_at (hinv.2.2.2.1 i hi)
    refine ⟨w, operator_subscript_of_memory dbg hi hw, ?_⟩
    apply operator_subscript_of_memory
    · simp only [size, pushed] at hi ⊢; omega
    · simp only [pushed]
      simp only [size] at hi
      rw [List.getElem?_set_ne (by omega)]
      exact hw

/-- Witness for C1: `push_back(42)` on a fresh `uint64_t` container of
capacity 1. -/
theorem push_back_postcondition_witness :
    ∃ s1, push_back true true scalar_ctor
        (initialized uint64_layout 4096 1 : unscoped_stack_vector Nat) value_category.rvalue 42
          = outcome.returned s1 42 ∧
      s1.size = (initialized uint64_layout 4096 1 : unscoped_stack_vector Nat).size + 1 ∧
      s1.max_size = (initialized uint64_layout 4096 1 : unscoped_stack_vector Nat).max_size ∧
      (operator_subscript true s1
          (initialized uint64_layout 4096 1 : unscoped_stack_vector Nat).size :
          outcome String (unscoped_stack_vector Nat) Nat) = outcome.returned s1 42 ∧
      ∀ i, i < (initialized uint64_layout 4096 1 : unscoped_stack_vector Nat).size → ∃ w,
        (operator_subscript true (initialized uint64_layout 4096 1) i :
          outcome String (unscoped_stack_vector Nat) Nat)
          = outcome.returned (initialized uint64_layout 4096 1) w ∧
        (operator_subscript true s1 i : outcome String (unscoped_stack_vector Nat) Nat)
          = outcome.returned s1 w :=
  push_back_postcondition true true scalar_ctor (initialized uint64_layout 4096 1)
    value_category.rvalue 42 42 42
    (invariant_created uint64_layout 4096 1 (by decide)) (by decide) rfl

/-- C2: in a container state (one that satisfies the data-model invariant)
with `size() > 0`, `pop_back` returns, having destroyed the element at index
`size() - 1`; afterwards `size()` is the old size minus 1, `max_size()` is
unchanged, the slot at index (old size - 1) is not live but raw storage, and
every index below (old size - 1) reads the same element as before. -/
theorem pop_back_postcondition (dbg : Bool) (self : unscoped_stack_vector T)
    (hinv : invariant self) (hpre : 0 < self.size) :
    ∃ s1 v, (pop_back dbg self : outcome ε (unscoped_stack_vector T) (Nat × T))
        = outcome.returned s1 (self.size - 1, v) ∧
      s1.size = self.size - 1 ∧ s1.max_size = self.max_size ∧
      live_at s1 (self.size - 1) = false ∧ uninitialized_at s1 (self.size - 1) = true ∧
      ∀ i, i < self.size - 1 → ∃ w,
        (operator_subscript dbg self i : outcome ε (unscoped_stack_vector T) T)
          = outcome.returned self w ∧
        (operator_subscript dbg s1 i : outcome ε (unscoped_stack_vector T) T)
          = outcome.returned s1 w := by
  obtain ⟨v, _, hv⟩ := pop_back_returns (ε := ε) dbg self hinv hpre
  have hlen : self.memory.length = self.m_max_size := hinv.2.2.1
  have hle : self.m_size ≤ self.m_max_size := hinv.2.1
  simp only [size] at hpre
  have hcell : (popped self).memory[self.size - 1]? = some slot.uninitialized := by
    simp only [popped, size]
    rw [List.getElem?_set_self (by omega)]
  refine ⟨popped self, v, hv, rfl, rfl, ?_, uninitialized_at_of_memory hcell, ?_⟩
  · simp [live_at, hcell]
  · intro i hi
    simp only [size] at hi
    obtain ⟨w, hw⟩ := memory_of_live_at (hinv.2.2.2.1 i (by omega))
    refine ⟨w, operator_subscript_of_memory dbg (by simp only [size]; omega) hw, ?_⟩
    apply operator_subscript_of_memory
    · simp only [size, popped]; omega
    · simp only [popped]
      rw [List.getElem?_set_ne (by omega)]
      exact hw

/-- Witness for C2: `pop_back()` on a `uint64_t` container of capacity 1 that
holds 42. -/
theorem pop_back_postcondition_witness :
    ∃ s1 v, (pop_back true (pushed (initialized uint64_layout 4096 1) 42) :
          outcome String (unscoped_stack_vector Nat) (Nat × Nat))
        = outcome.returned s1 ((pushed (initialized uint64_layout 4096 1) 42).size - 1, v) ∧
      s1.size = (pushed (initialized uint64_layout 4096 1) 42).size - 1 ∧
      s1.max_size = (pushed (initialized uint64_layout 4096 1) 42).max_size ∧
      live_at s1 ((pushed (initialized uint64_layout 4096 1) 42).size - 1) = false ∧
      uninitialized_at s1 ((pushed (initialized uint64_layout 4096 1) 42).size - 1) = true ∧
      ∀ i, i < (pushed (initialized uint64_layout 4096 1) 42).size - 1 → ∃ w,
        (operator_subscript true (pushed (initialized uint64_layout 4096 1) 42) i :
          outcome String (unscoped_stack_vector Nat) Nat)
          = outcome.returned (pushed (initialized uint64_layout 4096 1) 42) w ∧
        (operator_subscript true s1 i : outcome String (unscoped_stack_vector Nat) Nat)
          = outcome.returned s1 w :=
  pop_back_postcondition true (pushed (initialized uint64_layout 4096 1) 42)
    (invariant_pushed 42 (invariant_created uint64_layout 4096 1 (by decide)) (by decide))
    (by decide)

/-- C3: a container created with `max_size` N > 0 (the byte count
N * sizeof(value_type) being representable in `size_type`) starts with
`size() = 0`, and in every state reached by `push_back` / `emplace_back` /
`pop_back` calls made with their preconditions satisfied,
`size() <= max_size() = N`; from there every further such call (whose
constructors do not throw) returns, keeps `size() <= max_size()`, and changes
`size()` by exactly +1 (`push_back`, `emplace_back`) or exactly -1
(`pop_back`). -/
theorem size_within_capacity (dbg mc : Bool) (L : value_type_layout)
    (ctor : value_category → T → Except ε (T × T)) (from_args : A → Except ε T)
    (args_noexcept : Bool)
    (addr N : Nat) (hN : 0 < N) (hfit : N * L.sizeof < size_type_modulus)
    (hnull : addr ≠ 0) (halign : addr % L.alignof = 0) :
    ∃ s0, (create dbg L addr N : outcome ε (unscoped_stack_vector T) Unit)
        = outcome.returned s0 () ∧ s0.size = 0 ∧ s0.max_size = N ∧
      ∀ s, reachable dbg mc ctor from_args args_noexcept s0 s →
        0 ≤ s.size ∧ s.size ≤ s.max_size ∧ s.max_size = N ∧
        ∀ op, precondition s op → constructs mc ctor from_args op = true →
          ∃ s1, apply dbg mc ctor from_args args_noexcept s op = outcome.returned s1 () ∧
            s1.size ≤ s1.max_size ∧
            (op ≠ operation.pop_back → s1.size = s.size + 1) ∧
            (op = operation.pop_back → s1.size + 1 = s.size) := by
  refine ⟨initialized L addr N, create_returns dbg L addr N hN hnull halign, rfl, rfl, ?_⟩
  intro s hs
  have h0 : invariant (initialized L addr N : unscoped_stack_vector T) :=
    invariant_created L addr N hfit
  have hinv := invariant_reachable h0 hs
  refine ⟨Nat.zero_le _, hinv.2.1, (max_size_reachable h0 hs).1, ?_⟩
  intro op hpre hc
  obtain ⟨s1, hs1⟩ := apply_returns dbg mc ctor from_args args_noexcept s op hinv hpre hc
  have hinv1 := invariant_apply hinv hpre hs1
  obtain ⟨h1, h2⟩ := apply_returned_inv hinv hpre hs1
  refine ⟨s1, hs1, hinv1.2.1, ?_, ?_⟩
  · intro hop
    obtain ⟨v, hv⟩ := h1 hop
    rw [hv]; rfl
  · intro hop
    rw [h2 hop]
    subst hop
    have : 0 < s.m_size := hpre
    simp only [size, popped]
    omega

/-- Witness for C3: a `uint64_t` container of capacity 10. -/
theorem size_within_capacity_witness :
    ∃ s0, (create true uint64_layout 4096 10 : outcome String (unscoped_stack_vector Nat) Unit)
        = outcome.returned s0 () ∧ s0.size = 0 ∧ s0.max_size = 10 ∧
      ∀ s, reachable true true scalar_ctor base_from_args false s0 s →
        0 ≤ s.size ∧ s.size ≤ s.max_size ∧ s.max_size = 10 ∧
        ∀ op, precondition s op → constructs true scalar_ctor base_from_args op = true →
          ∃ s1, apply true true scalar_ctor base_from_args false s op = outcome.returned s1 () ∧
            s1.size ≤ s1.max_size ∧
            (op ≠ operation.pop_back → s1.size = s.size + 1) ∧
            (op = operation.pop_back → s1.size + 1 = s.size) :=
  size_within_capacity true true uint64_layout scalar_ctor base_from_args false 4096 10
    (by decide) (by decide) (by decide) (by decide)

/-- C4: for N > 0 (and storage that `alloca` returned non-null and aligned),
`create(N)` returns with `size() = 0` and `max_size() = N`; and for K <= N,
when N * sizeof(value_type) is representable in `size_type` and the
constructors build the default value `d`, `create(N, K)` returns with
`max_size() = N`, `size() = K` and the element `d` at each index below K. -/
theorem create_postcondition (dbg : Bool) (L : value_type_layout) (addr N : Nat)
    (hN : 0 < N) (hnull : addr ≠ 0) (halign : addr % L.alignof = 0) :
    (∃ s, (create dbg L addr N : outcome ε (unscoped_stack_vector T) Unit)
        = outcome.returned s () ∧ s.size = 0 ∧ s.max_size = N) ∧
    ∀ (mc : Bool) (ctor : value_category → T → Except ε (T × T)) (default_ctor : Except ε T)
      (nothrow_default : Bool) (K : Nat) (d src : T),
      K ≤ N → N * L.sizeof < size_type_modulus →
      default_ctor = Except.ok d →
      ctor (forwarded mc value_category.rvalue) d = Except.ok (d, src) →
      ∃ s, create_initial_size dbg mc L ctor default_ctor nothrow_default addr N K
          = outcome.returned s () ∧
        s.max_size = N ∧ s.size = K ∧
        ∀ i, i < K →
          (operator_subscript dbg s i : outcome ε (unscoped_stack_vector T) T)
            = outcome.returned s d := by
  refine ⟨⟨initialized L addr N, create_returns dbg L addr N hN hnull halign, rfl, rfl⟩, ?_⟩
  intro mc ctor default_ctor nothrow_default K d src hK hfit hdef hctor
  obtain ⟨s, hs, hh, hm, _⟩ := create_initial_size_returns dbg mc L ctor default_ctor
    nothrow_default addr N K d src hN hK hfit hnull halign hdef hctor
  refine ⟨s, hs, hm, by simpa using holds_size hh, ?_⟩
  intro i hi
  have hi2 : i < (List.replicate K d).length := by simpa using hi
  have := operator_subscript_holds (ε := ε) dbg hh i hi2
  simpa using this

/-- Witness for C4: `create(5)` and `create(5, 3)` for a type whose default
constructor gives 0xFEED. -/
theorem create_postcondition_witness :
    (∃ s, (create true uint64_layout 4096 5 : outcome String (unscoped_stack_vector Nat) Unit)
        = outcome.returned s () ∧ s.size = 0 ∧ s.max_size = 5) ∧
    ∃ s, create_initial_size true true uint64_layout scalar_ctor (Except.ok 65261) false 4096 5 3
        = outcome.returned s () ∧ s.max_size = 5 ∧ s.size = 3 ∧
      ∀ i, i < 3 →
        (operator_subscript true s i : outcome String (unscoped_stack_vector Nat) Nat)
          = outcome.returned s 65261 :=
  have h := create_postcondition (T := Nat) (ε := String) true uint64_layout 4096 5
    (by decide) (by decide) (by decide)
  ⟨h.1,
    h.2 true scalar_ctor (Except.ok 65261) false 3 65261 65261 (by decide) (by decide) rfl rfl⟩

/-- As long as every call returns: starting from `create(N)` or
`create(N, K)` (K <= N, N > 0, the byte count representable, the default value
constructible), both of which return, in every state reached by `push_back`,
`emplace_back` and `pop_back` calls that are made with their preconditions
satisfied and return, the live slots are exactly those at indices below
`size()` and the raw slots exactly those at indices from `size()` up to
`max_size()`.  From there a `push_back` / `emplace_back` whose constructors do
not throw returns, having found the slot at index `size()` raw, left it live
and changed no other slot; a `pop_back` returns, having found the slot at
index `size() - 1` live, left it raw and changed no other slot. -/
theorem slots_after_returning_calls (dbg mc : Bool) (L : value_type_layout)
    (ctor : value_category → T → Except ε (T × T)) (default_ctor : Except ε T)
    (nothrow_default : Bool) (from_args : A → Except ε T) (args_noexcept : Bool)
    (addr N K : Nat) (d src : T)
    (hN : 0 < N) (hK : K ≤ N) (hfit : N * L.sizeof < size_type_modulus)
    (hnull : addr ≠ 0) (halign : addr % L.alignof = 0)
    (hdef : default_ctor = Except.ok d)
    (hctor : ctor (forwarded mc value_category.rvalue) d = Except.ok (d, src)) :
    ∃ s0 sK, (create dbg L addr N : outcome ε (unscoped_stack_vector T) Unit)
        = outcome.returned s0 () ∧
      create_initial_size dbg mc L ctor default_ctor nothrow_default addr N K
        = outcome.returned sK () ∧
      ∀ start, start = s0 ∨ start = sK →
      ∀ s, reachable dbg mc ctor from_args args_noexcept start s →
        (∀ i, live_at s i = true ↔ i < s.size) ∧
        (∀ i, uninitialized_at s i = true ↔ s.size ≤ i ∧ i < s.max_size) ∧
        ∀ op, precondition s op → constructs mc ctor from_args op = true →
          ∃ s1, apply dbg mc ctor from_args args_noexcept s op = outcome.returned s1 () ∧
          (op ≠ operation.pop_back →
            uninitialized_at s s.size = true ∧ live_at s1 s.size = true ∧
            ∀ i, i ≠ s.size → s1.memory[i]? = s.memory[i]?) ∧
          (op = operation.pop_back →
            live_at s (s.size - 1) = true ∧ uninitialized_at s1 (s.size - 1) = true ∧
            ∀ i, i ≠ s.size - 1 → s1.memory[i]? = s.memory[i]?) := by
  obtain ⟨sK, hsK, hhK, _, _⟩ := create_initial_size_returns dbg mc L ctor default_ctor
    nothrow_default addr N K d src hN hK hfit hnull halign hdef hctor
  refine ⟨initialized L addr N, sK, create_returns dbg L addr N hN hnull halign, hsK, ?_⟩
  intro start hstart s hs
  have h0 : invariant start := by
    rcases hstart with h | h
    · rw [h]; exact invariant_created L addr N hfit
    · rw [h]; exact holds_invariant hhK
  have hinv := invariant_reachable h0 hs
  obtain ⟨hl, hu⟩ := slots_of_invariant hinv
  refine ⟨hl, hu, ?_⟩
  intro op hpre hc
  obtain ⟨s1, happ⟩ := apply_returns dbg mc ctor from_args args_noexcept s op hinv hpre hc
  refine ⟨s1, happ, ?_⟩
  have hinv1 := invariant_apply hinv hpre happ
  obtain ⟨hl1, hu1⟩ := slots_of_invariant hinv1
  obtain ⟨h1, h2⟩ := apply_returned_inv hinv hpre happ
  constructor
  · intro hop
    obtain ⟨v, hv⟩ := h1 hop
    have hlt : s.size < s.max_size := by
      cases op with
      | push_back cat data => exact hpre
      | emplace_back args => exact hpre
      | pop_back => exact absurd rfl hop
    refine ⟨(hu s.size).2 ⟨Nat.le_refl _, hlt⟩, ?_, ?_⟩
    · rw [hl1]; rw [hv]; simp [size, pushed]
    · intro i hi
      rw [hv]
      simp only [pushed, size] at hi ⊢
      rw [List.getElem?_set_ne (Ne.symm hi)]
  · intro hop
    subst hop
    have hpos : 0 < s.size := hpre
    refine ⟨(hl (s.size - 1)).2 (by omega), ?_, ?_⟩
    · rw [hu1, h2 rfl]
      simp only [size, max_size, popped] at hpos ⊢
      have := hinv.2.1
      omega
    · intro i hi
      rw [h2 rfl]
      simp only [popped, size] at hi ⊢
      rw [List.getElem?_set_ne (Ne.symm hi)]

/-- C5: what the code does.  On the container that `create(1)` returned, a
`push_back` made with its precondition satisfied (`size()` 0, `max_size()` 1)
whose element constructor throws leaves the container with `size()` 1 while
the slot at index 0 is still raw: a slot below `size()` that is not live, so
the live slots are not exactly those below `size()`.  A `pop_back` from that
state, made with its precondition `size() > 0` satisfied, destroys a slot that
holds no object, which is undefined behaviour, instead of taking a live slot
to raw. -/
theorem throwing_push_back_breaks_slot_states :
    ∃ s0 s, (create true uint64_layout 4096 1 : outcome String (unscoped_stack_vector Nat) Unit)
        = outcome.returned s0 () ∧
      s0.size < s0.max_size ∧
      push_back true true throwing_ctor s0 value_category.rvalue 7
        = outcome.thrown "constructor failed" s ∧
      s.size = 1 ∧ s.max_size = 1 ∧ live_at s 0 = false ∧ uninitialized_at s 0 = true ∧
      (¬ ∀ i, live_at s i = true ↔ i < s.size) ∧
      0 < s.size ∧
      (pop_back true s : outcome String (unscoped_stack_vector Nat) (Nat × Nat))
        = outcome.undefined :=
  ⟨initialized uint64_layout 4096 1,
    { m_data := 4096, m_max_size := 1, m_size := 1, memory := [slot.uninitialized] },
    by decide, by decide, by decide, by decide, by decide, by decide, by decide,
    fun h => absurd ((h 0).2 (by decide)) (by decide), by decide, by decide⟩

/-- C6: for every state and index i, `at(i)` throws the out-of-range error
exactly when `i >= size()`, leaving the container as it was; in particular
`at(size())` and `at(size() + 1)` throw.  In a container state (one that
satisfies the data-model invariant) the outcome does not depend on the
debug-assertion switch, and for `i < size()` `at(i)` returns the element that
`operator[](i)` returns. -/
theorem at_bounds_checked (dbg : Bool) (self : unscoped_stack_vector T) (i : Nat) :
    ((∃ e s1, at_ dbg self i = outcome.thrown e s1) ↔ self.size ≤ i) ∧
    (self.size ≤ i →
      at_ dbg self i = outcome.thrown (out_of_range_message i self.size self.max_size) self) ∧
    (∃ e, at_ dbg self self.size = outcome.thrown e self) ∧
    (∃ e, at_ dbg self (self.size + 1) = outcome.thrown e self) ∧
    (invariant self → at_ true self i = at_ false self i) ∧
    (invariant self → i < self.size →
      ∃ v, at_ dbg self i = outcome.returned self v ∧
        (operator_subscript dbg self i : outcome String (unscoped_stack_vector T) T)
          = outcome.returned self v) := by
  have hin : invariant self → i < self.size →
      ∃ v, ∀ b : Bool, (operator_subscript b self i : outcome String (unscoped_stack_vector T) T)
        = outcome.returned self v := by
    intro hinv hi
    obtain ⟨v, hv⟩ := memory_of_live_at (hinv.2.2.2.1 i hi)
    exact ⟨v, fun b => operator_subscript_of_memory b hi hv⟩
  refine ⟨⟨?_, ?_⟩, at_out_of_range dbg self i, ⟨_, at_out_of_range dbg self _ (Nat.le_refl _)⟩,
    ⟨_, at_out_of_range dbg self _ (Nat.le_succ _)⟩, ?_, ?_⟩
  · rintro ⟨e, s1, h⟩
    by_contra hn
    have hi : i < self.size := by omega
    rw [at_in_range dbg self i hi] at h
    unfold operator_subscript at h
    split at h
    · cases h
    · split at h <;> cases h
  · intro hi
    exact ⟨_, _, at_out_of_range dbg self i hi⟩
  · intro hinv
    by_cases hi : i < self.size
    · obtain ⟨v, hv⟩ := hin hinv hi
      rw [at_in_range true self i hi, at_in_range false self i hi, hv true, hv false]
    · rw [at_out_of_range true self i (by omega), at_out_of_range false self i (by omega)]
  · intro hinv hi
    obtain ⟨v, hv⟩ := hin hinv hi
    exact ⟨v, by rw [at_in_range dbg self i hi, hv dbg], hv dbg⟩

/-- Witness for C6: index 0 of a `uint64_t` container of capacity 1 that
holds 42. -/
theorem at_bounds_checked_witness :
    invariant (pushed (initialized uint64_layout 4096 1 : unscoped_stack_vector Nat) 42) ∧
    0 < (pushed (initialized uint64_layout 4096 1 : unscoped_stack_vector Nat) 42).size ∧
    at_ true (pushed (initialized uint64_layout 4096 1 : unscoped_stack_vector Nat) 42) 0
      = at_ false (pushed (initialized uint64_layout 4096 1) 42) 0 ∧
    ∃ v, at_ true (pushed (initialized uint64_layout 4096 1 : unscoped_stack_vector Nat) 42) 0
        = outcome.returned (pushed (initialized uint64_layout 4096 1) 42) v ∧
      (operator_subscript true (pushed (initialized uint64_layout 4096 1) 42) 0 :
          outcome String (unscoped_stack_vector Nat) Nat)
        = outcome.returned (pushed (initialized uint64_layout 4096 1) 42) v :=
  have hinv : invariant
      (pushed (initialized uint64_layout 4096 1 : unscoped_stack_vector Nat) 42) :=
    invariant_pushed 42 (invariant_created uint64_layout 4096 1 (by decide)) (by decide)
  have h := at_bounds_checked true
    (pushed (initialized uint64_layout 4096 1 : unscoped_stack_vector Nat) 42) 0
  ⟨hinv, by decide, h.2.2.2.2.1 hinv, h.2.2.2.2.2 hinv (by decide)⟩

/-- C7: for values v1..vk with 1 <= k <= N (N * sizeof(value_type)
representable, each constructor call building an object equal to its
argument), `create(N)` followed by `push_back(v1)`, ..., `push_back(vk)`
returns a state in which index i-1 reads vi for every i; reading `back()`
before each of k `pop_back()` calls observes vk, ..., v1 in that order, and so
does reading index `size() - 1` instead. -/
theorem lifo_order (dbg mc : Bool) (L : value_type_layout)
    (ctor : value_category → T → Except ε (T × T)) (cat : value_category)
    (addr N : Nat) (vs : List T)
    (hk : 1 ≤ vs.length) (hkN : vs.length ≤ N) (hfit : N * L.sizeof < size_type_modulus)
    (hnull : addr ≠ 0) (halign : addr % L.alignof = 0)
    (hctor : ∀ v ∈ vs, ∃ src, ctor (forwarded mc cat) v = Except.ok (v, src)) :
    ∃ s0 s, (create dbg L addr N : outcome ε (unscoped_stack_vector T) Unit)
        = outcome.returned s0 () ∧
      push_back_all dbg mc ctor cat vs s0 = outcome.returned s () ∧
      s.size = vs.length ∧
      (∀ i (h : i < vs.length),
        (operator_subscript dbg s i : outcome ε (unscoped_stack_vector T) T)
          = outcome.returned s (vs.get ⟨i, h⟩)) ∧
      (∃ s1, (pop_back_all dbg (back dbg) vs.length s :
            outcome ε (unscoped_stack_vector T) (List T))
          = outcome.returned s1 vs.reverse ∧ s1.size = 0) ∧
      (∃ s1, (pop_back_all dbg (fun c => operator_subscript dbg c (c.size - 1)) vs.length s :
            outcome ε (unscoped_stack_vector T) (List T))
          = outcome.returned s1 vs.reverse ∧ s1.size = 0) := by
  have hN : 0 < N := by omega
  obtain ⟨s, hs, hh, _, _⟩ := push_back_all_holds dbg mc ctor cat vs (initialized L addr N) []
    (holds_initialized L addr N hfit) (by simpa [max_size, initialized] using hkN) hctor
  have hh2 : holds s vs := by simpa using hh
  refine ⟨initialized L addr N, s, create_returns dbg L addr N hN hnull halign, hs,
    holds_size hh2, fun i h => operator_subscript_holds dbg hh2 i h, ?_, ?_⟩
  · obtain ⟨s1, hs1, hh1⟩ := pop_back_all_holds dbg (back dbg)
      (fun c xs v hc => back_holds dbg hc) [] vs s hh
    exact ⟨s1, hs1, by simpa using holds_size hh1⟩
  · obtain ⟨s1, hs1, hh1⟩ := pop_back_all_holds dbg
      (fun c => (operator_subscript dbg c (c.size - 1) : outcome ε (unscoped_stack_vector T) T))
      (fun c xs v hc => operator_subscript_of_memory dbg
        (by have := (holds_last hc).1; omega) (holds_last hc).2) [] vs s hh
    exact ⟨s1, hs1, by simpa using holds_size hh1⟩

/-- Witness for C7: the values 5, 4, 3, 2, 1 pushed into a `uint64_t`
container of capacity 10. -/
theorem lifo_order_witness :
    ∃ s0 s, (create true uint64_layout 4096 10 : outcome String (unscoped_stack_vector Nat) Unit)
        = outcome.returned s0 () ∧
      push_back_all true true scalar_ctor value_category.rvalue [5, 4, 3, 2, 1] s0
        = outcome.returned s () ∧
      s.size = [5, 4, 3, 2, 1].length ∧
      (∀ i (h : i < [5, 4, 3, 2, 1].length),
        (operator_subscript true s i : outcome String (unscoped_stack_vector Nat) Nat)
          = outcome.returned s ([5, 4, 3, 2, 1].get ⟨i, h⟩)) ∧
      (∃ s1, (pop_back_all true (back true) [5, 4, 3, 2, 1].length s :
            outcome String (unscoped_stack_vector Nat) (List Nat))
          = outcome.returned s1 [5, 4, 3, 2, 1].reverse ∧ s1.size = 0) ∧
      (∃ s1, (pop_back_all true (fun c => operator_subscript true c (c.size - 1))
            [5, 4, 3, 2, 1].length s : outcome String (unscoped_stack_vector Nat) (List Nat))
          = outcome.returned s1 [5, 4, 3, 2, 1].reverse ∧ s1.size = 0) :=
  lifo_order true true uint64_layout scalar_ctor value_category.rvalue 4096 10 [5, 4, 3, 2, 1]
    (by decide) (by decide) (by decide) (by decide) (by decide) (fun v _ => ⟨v, rfl⟩)

/-- C8: what the code does.  A container of capacity 1 into which 42 was
pushed has `size() = 1` and a live element at index 0; its destruction calls
no element destructor, so the live element's destructor is not run. -/
theorem destructor_runs_no_element_destructor :
    ∃ s, push_back true true scalar_ctor
        (initialized uint64_layout 4096 1 : unscoped_stack_vector Nat) value_category.rvalue 42
          = outcome.returned s 42 ∧
      s.size = 1 ∧ live_at s 0 = true ∧ destructor s = [] ∧
      (destructor s).count (0, 42) ≠ 1 :=
  ⟨pushed (initialized uint64_layout 4096 1) 42, by decide, by decide, by decide, rfl,
    by decide⟩

/-- C9: what the code does.  `push_back` on an empty container of capacity 1,
with an element constructor that throws, lets the exception out with
`size()` already incremented to 1 while the slot at index 0 is still raw
storage: the container after the failure is not the one before the call. -/
theorem push_back_throw_leaves_size_incremented :
    (initialized uint64_layout 4096 1 : unscoped_stack_vector Nat).size = 0 ∧
    ∃ s, push_back true true throwing_ctor
        (initialized uint64_layout 4096 1 : unscoped_stack_vector Nat) value_category.rvalue 7
          = outcome.thrown "constructor failed" s ∧
      s.size = 1 ∧ live_at s 0 = false ∧ uninitialized_at s 0 = true ∧
      s ≠ initialized uint64_layout 4096 1 :=
  ⟨rfl, { m_data := 4096, m_max_size := 1, m_size := 1, memory := [slot.uninitialized] },
    by decide, by decide, by decide, by decide, by decide⟩

/-- C10, counterexample: for a copyable and movable element type,
`push_back` of an lvalue returns with the argument left as it was (7), which
is not what move construction from it leaves (0): the element was
copy-constructed although the type supports move construction. -/
theorem push_back_lvalue_is_copied :
    push_back true true handle_ctor
        (initialized uint64_layout 4096 1 : unscoped_stack_vector Nat) value_category.lvalue 7
      = outcome.returned (pushed (initialized uint64_layout 4096 1) 7) 7 ∧
    handle_ctor value_category.rvalue 7 = Except.ok (7, 0) ∧
    ¬ ∃ s1 v src, push_back true true handle_ctor
          (initialized uint64_layout 4096 1 : unscoped_stack_vector Nat) value_category.lvalue 7
        = outcome.returned s1 src ∧
      handle_ctor value_category.rvalue 7 = Except.ok (v, src) := by
  refine ⟨by decide, rfl, ?_⟩
  rintro ⟨s1, v, src, h1, h2⟩
  have h3 : push_back true true handle_ctor
        (initialized uint64_layout 4096 1 : unscoped_stack_vector Nat) value_category.lvalue 7
      = outcome.returned (pushed (initialized uint64_layout 4096 1) 7) 7 := by decide
  rw [h3] at h1
  cases h1
  cases h2

/-- C10, amended: in a container state with `size() < max_size()`, if
`value_type` is move-constructible `push_back` forwards its argument: from an
rvalue the new element is move-constructed (the argument is left as the move
constructor leaves it), from an lvalue it is copy-constructed (the argument is
left as the copy constructor leaves it); if `value_type` is not
move-constructible the new element is copy-constructed whatever the
argument's value category. -/
theorem push_back_forwards_argument (dbg mc : Bool)
    (ctor : value_category → D → Except ε (T × D))
    (self : unscoped_stack_vector T) (cat : value_category) (data : D) (v : T) (src : D)
    (hinv : invariant self) (hpre : self.size < self.max_size) :
    (mc = true → cat = value_category.rvalue →
      ctor value_category.rvalue data = Except.ok (v, src) →
      builds dbg mc ctor self cat data v src) ∧
    (mc = true → cat = value_category.lvalue →
      ctor value_category.lvalue data = Except.ok (v, src) →
      builds dbg mc ctor self cat data v src) ∧
    (mc = false → ctor value_category.lvalue data = Except.ok (v, src) →
      builds dbg mc ctor self cat data v src) := by
  have key : ctor (forwarded mc cat) data = Except.ok (v, src) →
      builds dbg mc ctor self cat data v src := by
    intro hc
    have hlen : self.memory.length = self.m_max_size := hinv.2.2.1
    refine ⟨pushed self v, push_back_returns dbg mc ctor self cat data v src hinv hpre hc,
      rfl, ?_⟩
    apply operator_subscript_of_memory
    · simp [size, pushed]
    · simp only [pushed, size]
      simp only [size, max_size] at hpre
      rw [List.getElem?_set_self (by omega)]
  refine ⟨?_, ?_, ?_⟩
  · intro hmc hcat hc
    apply key
    rw [hmc, hcat]
    exact hc
  · intro hmc hcat hc
    apply key
    rw [hmc, hcat]
    exact hc
  · intro hmc hc
    apply key
    rw [hmc]
    exact hc

/-- Witness for C10, amended: a copyable and movable type pushed as an rvalue
and as an lvalue, and pushed when move construction is not available. -/
theorem push_back_forwards_argument_witness :
    builds true true handle_ctor (initialized uint64_layout 4096 1 : unscoped_stack_vector Nat)
      value_category.rvalue 7 7 0 ∧
    builds true true handle_ctor (initialized uint64_layout 4096 1 : unscoped_stack_vector Nat)
      value_category.lvalue 7 7 7 ∧
    builds true false handle_ctor (initialized uint64_layout 4096 1 : unscoped_stack_vector Nat)
      value_category.rvalue 7 7 7 :=
  have hinv : invariant (initialized uint64_layout 4096 1 : unscoped_stack_vector Nat) :=
    invariant_created uint64_layout 4096 1 (by decide)
  ⟨(push_back_forwards_argument true true handle_ctor (initialized uint64_layout 4096 1)
      value_category.rvalue 7 7 0 hinv (by decide)).1 rfl rfl rfl,
   (push_back_forwards_argument true true handle_ctor (initialized uint64_layout 4096 1)
      value_category.lvalue 7 7 7 hinv (by decide)).2.1 rfl rfl rfl,
   (push_back_forwards_argument true false handle_ctor (initialized uint64_layout 4096 1)
      value_category.rvalue 7 7 7 hinv (by decide)).2.2 rfl rfl⟩

/-- In a container state with `size() > 0` the non-const `front()` reads index
0, `back()` reads index `size() - 1`, and `data()` is the address of the slot
at index 0. -/
theorem element_access (dbg : Bool) (L : value_type_layout) (self : unscoped_stack_vector T)
    (hinv : invariant self) (hpre : 0 < self.size) :
    (∃ a, (front dbg self : outcome ε (unscoped_stack_vector T) T) = outcome.returned self a ∧
      (operator_subscript dbg self 0 : outcome ε (unscoped_stack_vector T) T)
        = outcome.returned self a) ∧
    (∃ b, (back dbg self : outcome ε (unscoped_stack_vector T) T) = outcome.returned self b ∧
      (operator_subscript dbg self (self.size - 1) : outcome ε (unscoped_stack_vector T) T)
        = outcome.returned self b) ∧
    self.data = address_of L self 0 := by
  obtain ⟨a, ha⟩ := memory_of_live_at (hinv.2.2.2.1 0 hpre)
  obtain ⟨b, hb⟩ := memory_of_live_at (hinv.2.2.2.1 (self.size - 1) (by simp only [size] at *; omega))
  have h0 := operator_subscript_of_memory (ε := ε) dbg hpre ha
  have h1 := operator_subscript_of_memory (ε := ε) dbg (i := self.size - 1) (by omega) hb
  refine ⟨⟨a, h0, h0⟩, ⟨b, ?_, h1⟩, by simp [data, address_of]⟩
  unfold back
  rw [size_sub_one_wrap hinv hpre]
  exact h1

/-- C12: what the code does.  In a container of capacity 5 that holds the
characters a to e (97 to 101), the non-const `front()` returns the element at
index 0, `back()` returns the element at index `size() - 1`, and `data()` is
the address of the slot at index 0; the const overload of `front()`, whose
body subscripts the name of a member function, has no meaning and returns
nothing. -/
theorem front_const_is_ill_formed :
    ∃ s, push_back_all true true scalar_ctor value_category.rvalue [97, 98, 99, 100, 101]
        (initialized char_layout 4096 5 : unscoped_stack_vector Nat)
        = outcome.returned s () ∧
      s.size = 5 ∧
      (operator_subscript true s 0 : outcome String (unscoped_stack_vector Nat) Nat)
        = outcome.returned s 97 ∧
      (front true s : outcome String (unscoped_stack_vector Nat) Nat) = outcome.returned s 97 ∧
      (back true s : outcome String (unscoped_stack_vector Nat) Nat) = outcome.returned s 101 ∧
      (operator_subscript true s (s.size - 1) : outcome String (unscoped_stack_vector Nat) Nat)
        = outcome.returned s 101 ∧
      s.data = address_of char_layout s 0 ∧
      (front_const true s : Option (outcome String (unscoped_stack_vector Nat) Nat)) = none :=
  ⟨{ m_data := 4096, m_max_size := 5, m_size := 5,
     memory := [slot.live 97, slot.live 98, slot.live 99, slot.live 100, slot.live 101] },
    by decide, by decide, by decide, by decide, by decide, by decide, by decide, by decide⟩

/-- C13: in a container state with `size() > 0`, `pop_back()` returns having
made exactly one destructor call, on the object that index `size() - 1` read
before the call; no destructor call is made at any other index, and the slot
is raw storage when the call has returned. -/
theorem pop_back_destroys_last_once (dbg : Bool) (self : unscoped_stack_vector T)
    (hinv : invariant self) (hpre : 0 < self.size) :
    ∃ s1 v, (operator_subscript dbg self (self.size - 1) :
          outcome ε (unscoped_stack_vector T) T) = outcome.returned self v ∧
      (pop_back dbg self : outcome ε (unscoped_stack_vector T) (Nat × T))
        = outcome.returned s1 (self.size - 1, v) ∧
      pop_back_destructor_calls dbg self = [(self.size - 1, v)] ∧
      ((pop_back_destructor_calls dbg self).filter
        (fun call => decide (call.1 = self.size - 1))).length = 1 ∧
      (∀ call ∈ pop_back_destructor_calls dbg self, call.1 = self.size - 1) ∧
      uninitialized_at s1 (self.size - 1) = true := by
  obtain ⟨v, hv, hpop⟩ := pop_back_returns (ε := ε) dbg self hinv hpre
  obtain ⟨w, hw, hpopu⟩ := pop_back_returns (ε := Unit) dbg self hinv hpre
  have hvw : w = v := by
    rw [hv] at hw
    cases hw
    rfl
  subst hvw
  have hcalls : pop_back_destructor_calls dbg self = [(self.size - 1, w)] := by
    simp [pop_back_destructor_calls, hpopu]
  have hlen : self.memory.length = self.m_max_size := hinv.2.2.1
  have hle : self.m_size ≤ self.m_max_size := hinv.2.1
  refine ⟨popped self, w, operator_subscript_of_memory dbg (by omega) hv, hpop, hcalls, ?_, ?_,
    ?_⟩
  · rw [hcalls]; simp
  · intro call hcall
    rw [hcalls] at hcall
    simp at hcall
    rw [hcall]
  · apply uninitialized_at_of_memory
    simp only [size] at hpre
    simp only [popped, size]
    rw [List.getElem?_set_self (by omega)]

/-- Witness for C13: `pop_back()` on a container of capacity 1 that holds
42. -/
theorem pop_back_destroys_last_once_witness :
    pop_back_destructor_calls true
      (pushed (initialized uint64_layout 4096 1 : unscoped_stack_vector Nat) 42) = [(0, 42)] := by
  obtain ⟨s1, v, h1, _, h3, _⟩ := pop_back_destroys_last_once (ε := String) true
    (pushed (initialized uint64_layout 4096 1 : unscoped_stack_vector Nat) 42)
    (invariant_pushed 42 (invariant_created uint64_layout 4096 1 (by decide)) (by decide))
    (by decide)
  have h42 : (operator_subscript true
      (pushed (initialized uint64_layout 4096 1 : unscoped_stack_vector Nat) 42)
      ((pushed (initialized uint64_layout 4096 1 : unscoped_stack_vector Nat) 42).size - 1) :
      outcome String (unscoped_stack_vector Nat) Nat)
      = outcome.returned (pushed (initialized uint64_layout 4096 1) 42) 42 := by decide
  rw [h42] at h1
  cases h1
  exact h3

/-- C14: for every state and every index `i >= size()`, in both assertion
modes, `at(i)` throws the out-of-range error whose message is "Index ", the
index, " is not a valid index for an unscoped_stack_vector of size ", the
size, " (max size ", the maximum size and ")", each number written with its
decimal digits; the container is left as it was. -/
theorem at_error_message (dbg : Bool) (self : unscoped_stack_vector T) (i : Nat)
    (hi : self.size ≤ i) :
    at_ dbg self i = outcome.thrown
      ("Index " ++ String.mk (Nat.toDigits 10 i)
        ++ " is not a valid index for an unscoped_stack_vector of size "
        ++ String.mk (Nat.toDigits 10 self.size)
        ++ " (max size " ++ String.mk (Nat.toDigits 10 self.max_size) ++ ")") self := by
  rw [at_out_of_range dbg self i hi]
  rfl

/-- Witness for C14: `at(12)` on a container of capacity 10 that holds three
elements. -/
theorem at_error_message_witness :
    at_ false three_of_ten 12
      = outcome.thrown
          "Index 12 is not a valid index for an unscoped_stack_vector of size 3 (max size 10)"
          three_of_ten :=
  (at_error_message false three_of_ten 12 (by decide)).trans (by decide)

/-- C15: with the assertions in effect, for every state: `create(max_size)`
aborts exactly when `max_size == 0`, given that `alloca` returned non-null,
aligned storage; `operator[](i)` aborts exactly when `i >= size()`;
`push_back` aborts exactly when `size() >= max_size()`; `pop_back` aborts
exactly when `size() == 0`.  So none of these assertions fails when the
documented precondition of its call holds. -/
theorem assertions_catch_violations (L : value_type_layout) (addr N : Nat)
    (hnull : addr ≠ 0) (halign : addr % L.alignof = 0)
    (ctor : value_category → D → Except ε (T × D)) (mc : Bool)
    (self : unscoped_stack_vector T) (i : Nat) (cat : value_category) (data : D) :
    ((create true L addr N : outcome ε (unscoped_stack_vector T) Unit) = outcome.assert_failed
      ↔ N = 0) ∧
    ((operator_subscript true self i : outcome ε (unscoped_stack_vector T) T)
        = outcome.assert_failed ↔ self.size ≤ i) ∧
    (push_back true mc ctor self cat data = outcome.assert_failed
      ↔ self.max_size ≤ self.size) ∧
    ((pop_back true self : outcome ε (unscoped_stack_vector T) (Nat × T))
        = outcome.assert_failed ↔ self.size = 0) ∧
    (0 < N → (create true L addr N : outcome ε (unscoped_stack_vector T) Unit)
      ≠ outcome.assert_failed) ∧
    (i < self.size → (operator_subscript true self i : outcome ε (unscoped_stack_vector T) T)
      ≠ outcome.assert_failed) ∧
    (self.size < self.max_size →
      push_back true mc ctor self cat data ≠ outcome.assert_failed) ∧
    (0 < self.size → (pop_back true self : outcome ε (unscoped_stack_vector T) (Nat × T))
      ≠ outcome.assert_failed) := by
  have main : ((create true L addr N : outcome ε (unscoped_stack_vector T) Unit)
        = outcome.assert_failed ↔ N = 0) ∧
      ((operator_subscript true self i : outcome ε (unscoped_stack_vector T) T)
          = outcome.assert_failed ↔ self.size ≤ i) ∧
      (push_back true mc ctor self cat data = outcome.assert_failed
        ↔ self.max_size ≤ self.size) ∧
      ((pop_back true self : outcome ε (unscoped_stack_vector T) (Nat × T))
          = outcome.assert_failed ↔ self.size = 0) := by
    refine ⟨?_, ?_, ?_, ?_⟩
    · by_cases hN : N = 0
      · simp [create, hN]
      · simp [create, initialized, hN, hnull, halign]
    · by_cases hi : i < self.size
      · have : ¬ self.size ≤ i := by omega
        simp only [this, iff_false]
        unfold operator_subscript
        simp only [hi, decide_True, Bool.not_true, Bool.and_false, Bool.false_eq_true, if_false]
        split <;> simp
      · have : self.size ≤ i := by omega
        simp [operator_subscript, hi, this]
    · by_cases hp : self.size < self.max_size
      · have : ¬ self.max_size ≤ self.size := by omega
        simp only [this, iff_false]
        unfold push_back
        simp only [hp, decide_True, Bool.not_true, Bool.and_false, Bool.false_eq_true, if_false]
        split
        · split <;> simp
        · simp
      · have : self.max_size ≤ self.size := by omega
        simp [push_back, hp, this]
    · by_cases hz : self.size = 0
      · simp [pop_back, hz]
      · simp only [hz, iff_false]
        unfold pop_back
        simp only [hz, beq_iff_eq, Bool.true_and, decide_False, Bool.false_eq_true, if_false]
        split <;> simp
  obtain ⟨h1, h2, h3, h4⟩ := main
  refine ⟨h1, h2, h3, h4, fun hN h => ?_, fun hi h => ?_, fun hp h => ?_, fun hz h => ?_⟩
  · have := h1.1 h; omega
  · have := h2.1 h; omega
  · have := h3.1 h; omega
  · have := h4.1 h; omega

/-- Witness for C15: capacity 10 requested at an aligned address, and the
container of capacity 10 that holds three elements. -/
theorem assertions_catch_violations_witness :
    ((create true uint64_layout 4096 10 : outcome String (unscoped_stack_vector Nat) Unit)
        = outcome.assert_failed ↔ 10 = 0) ∧
    ((operator_subscript true three_of_ten 3 : outcome String (unscoped_stack_vector Nat) Nat)
        = outcome.assert_failed ↔ three_of_ten.size ≤ 3) ∧
    (push_back true true scalar_ctor three_of_ten value_category.rvalue 7 = outcome.assert_failed
      ↔ three_of_ten.max_size ≤ three_of_ten.size) ∧
    ((pop_back true three_of_ten : outcome String (unscoped_stack_vector Nat) (Nat × Nat))
        = outcome.assert_failed ↔ three_of_ten.size = 0) :=
  have h := assertions_catch_violations uint64_layout 4096 10 (by decide) (by decide)
    scalar_ctor true three_of_ten 3 value_category.rvalue 7
  ⟨h.1, h.2.1, h.2.2.1, h.2.2.2.1⟩

theorem operator_subscript_switch (self : unscoped_stack_vector T) (i : Nat)
    (hi : i < self.size) :
    (operator_subscript true self i : outcome ε (unscoped_stack_vector T) T)
      = operator_subscript false self i := by
  simp [operator_subscript, hi]

theorem push_back_switch (mc : Bool) (ctor : value_category → D → Except ε (T × D))
    (self : unscoped_stack_vector T) (cat : value_category) (data : D)
    (hpre : self.size < self.max_size) :
    push_back true mc ctor self cat data = push_back false mc ctor self cat data := by
  simp [push_back, hpre]

theorem pop_back_switch (self : unscoped_stack_vector T) (hpre : 0 < self.size) :
    (pop_back true self : outcome ε (unscoped_stack_vector T) (Nat × T))
      = pop_back false self := by
  have : self.size ≠ 0 := by omega
  simp [pop_back, this]

/-- What `push_back` does to the data members when it returns or throws. -/
theorem push_back_final_state {dbg mc : Bool} {ctor : value_category → D → Except ε (T × D)}
    {self s1 : unscoped_stack_vector T} {cat : value_category} {data : D}
    (h : (push_back dbg mc ctor self cat data).final_state = some s1) :
    s1.m_max_size = self.m_max_size ∧ s1.m_data = self.m_data ∧
      s1.m_size = (self.m_size + 1) % size_type_modulus := by
  unfold push_back at h
  split at h
  · cases h
  · simp only at h
    split at h
    · split at h
      · simp only [outcome.final_state, Option.some.injEq] at h
        subst h
        exact ⟨rfl, rfl, rfl⟩
      · simp only [outcome.final_state, Option.some.injEq] at h
        subst h
        exact ⟨rfl, rfl, rfl⟩
    · cases h

theorem push_back_defaults_switch (mc : Bool) (ctor : value_category → T → Except ε (T × T))
    (default_ctor : Except ε T) (n : Nat) :
    ∀ self : unscoped_stack_vector T, self.m_size + n ≤ self.m_max_size →
      push_back_defaults true mc ctor default_ctor n self
        = push_back_defaults false mc ctor default_ctor n self := by
  induction n with
  | zero => intro self _; rfl
  | succ n ih =>
      intro self hcap
      cases hd : default_ctor with
      | error e => simp [push_back_defaults]
      | ok tmp =>
          have hpre : self.size < self.max_size := by simp only [size, max_size]; omega
          simp only [push_back_defaults]
          rw [push_back_switch mc ctor self value_category.rvalue tmp hpre]
          cases hp : push_back false mc ctor self value_category.rvalue tmp with
          | returned s1 src =>
              have hf : (push_back false mc ctor self value_category.rvalue tmp).final_state
                  = some s1 := by rw [hp]; rfl
              obtain ⟨h1, _, h3⟩ := push_back_final_state hf
              have hmod : (self.m_size + 1) % size_type_modulus ≤ self.m_size + 1 :=
                Nat.mod_le _ _
              simp only [outcome.bind]
              rw [← hd]
              exact ih s1 (by omega)
          | thrown e s1 => rfl
          | assert_failed => rfl
          | undefined => rfl
          | terminated => rfl

/-- C16: for every state, when the documented precondition of a call holds
(and `alloca` returned non-null, aligned storage, for the constructors), the
call with the assertions in effect has the same outcome, result and final
state included, as the call without them: `create(N)` with N > 0,
`create(N, K)` with K <= N, `operator[](i)` with `i < size()`, `at(i)` for
every i, `front()` and `back()` with `size() > 0`, `push_back` and
`emplace_back` with `size() < max_size()`, `pop_back` with `size() > 0`.
`size()`, `max_size()` and `data()` contain no assertion. -/
theorem switch_preserves_contract (L : value_type_layout) (addr N K : Nat) (mc : Bool)
    (ctor : value_category → T → Except ε (T × T)) (default_ctor : Except ε T)
    (nothrow_default : Bool) (from_args : A → Except ε T) (args_noexcept : Bool)
    (self : unscoped_stack_vector T) (i : Nat)
    (cat : value_category) (data : T) (args : A) :
    (0 < N → addr ≠ 0 → addr % L.alignof = 0 →
      (create true L addr N : outcome ε (unscoped_stack_vector T) Unit)
        = create false L addr N) ∧
    (0 < N → K ≤ N → addr ≠ 0 → addr % L.alignof = 0 →
      create_initial_size true mc L ctor default_ctor nothrow_default addr N K
        = create_initial_size false mc L ctor default_ctor nothrow_default addr N K) ∧
    (i < self.size →
      (operator_subscript true self i : outcome ε (unscoped_stack_vector T) T)
        = operator_subscript false self i) ∧
    at_ true self i = at_ false self i ∧
    (0 < self.size →
      (front true self : outcome ε (unscoped_stack_vector T) T) = front false self) ∧
    (0 < self.size → self.size < size_type_modulus →
      (back true self : outcome ε (unscoped_stack_vector T) T) = back false self) ∧
    (self.size < self.max_size →
      push_back true mc ctor self cat data = push_back false mc ctor self cat data) ∧
    (0 < self.size →
      (pop_back true self : outcome ε (unscoped_stack_vector T) (Nat × T))
        = pop_back false self) ∧
    (self.size < self.max_size →
      emplace_back true mc ctor from_args args_noexcept self args
        = emplace_back false mc ctor from_args args_noexcept self args) := by
  have hcreate : 0 < N → addr ≠ 0 → addr % L.alignof = 0 →
      (create true L addr N : outcome ε (unscoped_stack_vector T) Unit)
        = create false L addr N := by
    intro hN hnull halign
    rw [create_returns true L addr N hN hnull halign,
      create_returns false L addr N hN hnull halign]
  refine ⟨hcreate, ?_, operator_subscript_switch self i, ?_, ?_, ?_,
    push_back_switch mc ctor self cat data, pop_back_switch self, ?_⟩
  · intro hN hK hnull halign
    simp only [create_initial_size, create_returns true L addr N hN hnull halign,
      create_returns false L addr N hN hnull halign, outcome.bind]
    have hge : K ≤ N := hK
    simp only [ge_iff_le, hge, decide_True, Bool.not_true, Bool.and_false, Bool.false_eq_true,
      if_false]
    rw [push_back_defaults_switch mc ctor default_ctor K _ (by simpa [initialized] using hK)]
  · by_cases hi : i < self.size
    · rw [at_in_range true self i hi, at_in_range false self i hi,
        operator_subscript_switch self i hi]
    · rw [at_out_of_range true self i (by omega), at_out_of_range false self i (by omega)]
  · intro hpos
    exact operator_subscript_switch self 0 hpos
  · intro hpos hlt
    unfold back
    apply operator_subscript_switch
    have : self.size + size_type_modulus - 1 = (self.size - 1) + size_type_modulus := by
      omega
    rw [this, Nat.add_mod_right, Nat.mod_eq_of_lt (by omega)]
    omega
  · intro hpre
    cases ha : from_args args with
    | error e => simp [emplace_back, ha]
    | ok tmp =>
        simp only [emplace_back, ha]
        rw [push_back_switch mc ctor self value_category.rvalue tmp hpre]

/-- Witness for C16: the constructors for capacity 10, and the calls on the
container of capacity 10 that holds three elements. -/
theorem switch_preserves_contract_witness :
    (create true uint64_layout 4096 10 : outcome String (unscoped_stack_vector Nat) Unit)
      = create false uint64_layout 4096 10 ∧
    create_initial_size true true uint64_layout scalar_ctor (Except.ok 0) true 4096 10 3
      = create_initial_size false true uint64_layout scalar_ctor (Except.ok 0) true 4096 10 3 ∧
    (operator_subscript true three_of_ten 1 : outcome String (unscoped_stack_vector Nat) Nat)
      = operator_subscript false three_of_ten 1 ∧
    at_ true three_of_ten 1 = at_ false three_of_ten 1 ∧
    (front true three_of_ten : outcome String (unscoped_stack_vector Nat) Nat)
      = front false three_of_ten ∧
    (back true three_of_ten : outcome String (unscoped_stack_vector Nat) Nat)
      = back false three_of_ten ∧
    push_back true true scalar_ctor three_of_ten value_category.rvalue 7
      = push_back false true scalar_ctor three_of_ten value_category.rvalue 7 ∧
    (pop_back true three_of_ten : outcome String (unscoped_stack_vector Nat) (Nat × Nat))
      = pop_back false three_of_ten ∧
    emplace_back true true scalar_ctor base_from_args false three_of_ten (1, 2)
      = emplace_back false true scalar_ctor base_from_args false three_of_ten (1, 2) :=
  have h := switch_preserves_contract uint64_layout 4096 10 3 true scalar_ctor (Except.ok 0)
    true base_from_args false three_of_ten 1 value_category.rvalue 7 (1, 2)
  ⟨h.1 (by decide) (by decide) (by decide),
    h.2.1 (by decide) (by decide) (by decide) (by decide),
    h.2.2.1 (by decide), h.2.2.2.1, h.2.2.2.2.1 (by decide),
    h.2.2.2.2.2.1 (by decide) (by decide), h.2.2.2.2.2.2.1 (by decide),
    h.2.2.2.2.2.2.2.1 (by decide), h.2.2.2.2.2.2.2.2 (by decide)⟩

theorem final_state_ignore_result {σ α : Type} (x : outcome ε σ α) :
    x.ignore_result.final_state = x.final_state := by
  cases x <;> rfl

theorem operator_subscript_final_state {dbg : Bool} {self s1 : unscoped_stack_vector T}
    {i : Nat}
    (h : (operator_subscript dbg self i : outcome ε (unscoped_stack_vector T) T).final_state
      = some s1) : s1 = self := by
  unfold operator_subscript at h
  split at h
  · cases h
  · split at h
    · simp only [outcome.final_state, Option.some.injEq] at h
      exact h.symm
    · cases h

theorem pop_back_final_state {dbg : Bool} {self s1 : unscoped_stack_vector T}
    (h : (pop_back dbg self : outcome ε (unscoped_stack_vector T) (Nat × T)).final_state
      = some s1) : s1.m_max_size = self.m_max_size ∧ s1.m_data = self.m_data := by
  unfold pop_back at h
  split at h
  · cases h
  · simp only at h
    split at h
    · simp only [outcome.final_state, Option.some.injEq] at h
      subst h
      exact ⟨rfl, rfl⟩
    · cases h

/-- No member call changes `m_max_size` or `m_data`, whether it returns or
throws. -/
theorem state_after_frame {dbg mc : Bool} {ctor : value_category → T → Except ε (T × T)}
    {from_args : A → Except ε T} {args_noexcept : Bool} {self s1 : unscoped_stack_vector T}
    (c : member_call T A)
    (h : state_after dbg mc ctor from_args args_noexcept self c = some s1) :
    s1.max_size = self.max_size ∧ s1.data = self.data := by
  simp only [max_size, data]
  cases c with
  | operator_subscript index =>
      rw [operator_subscript_final_state h]
      exact ⟨rfl, rfl⟩
  | at_ index =>
      simp only [state_after] at h
      by_cases hi : index < self.size
      · rw [at_in_range dbg self index hi] at h
        rw [operator_subscript_final_state h]
        exact ⟨rfl, rfl⟩
      · rw [at_out_of_range dbg self index (by omega)] at h
        simp only [outcome.final_state, Option.some.injEq] at h
        subst h
        exact ⟨rfl, rfl⟩
  | front =>
      simp only [state_after, front] at h
      rw [operator_subscript_final_state h]
      exact ⟨rfl, rfl⟩
  | back =>
      simp only [state_after, back] at h
      rw [operator_subscript_final_state h]
      exact ⟨rfl, rfl⟩
  | push_back cat data =>
      obtain ⟨h1, h2, _⟩ := push_back_final_state h
      exact ⟨h1, h2⟩
  | pop_back => exact pop_back_final_state h
  | emplace_back args =>
      simp only [state_after, emplace_back] at h
      replace h := final_state_noexcept_if h
      cases ha : from_args args with
      | error e =>
          rw [ha] at h
          simp only [outcome.final_state, Option.some.injEq] at h
          subst h
          exact ⟨rfl, rfl⟩
      | ok tmp =>
          rw [ha] at h
          simp only [final_state_ignore_result] at h
          obtain ⟨h1, h2, _⟩ := push_back_final_state h
          exact ⟨h1, h2⟩

theorem lifetime_frame {dbg mc : Bool} {ctor : value_category → T → Except ε (T × T)}
    {from_args : A → Except ε T} {args_noexcept : Bool} {s0 s : unscoped_stack_vector T}
    (h : lifetime dbg mc ctor from_args args_noexcept s0 s) :
    s.max_size = s0.max_size ∧ s.data = s0.data := by
  induction h with
  | start => exact ⟨rfl, rfl⟩
  | call c _ hstep ih =>
      obtain ⟨h1, h2⟩ := state_after_frame c hstep
      exact ⟨h1.trans ih.1, h2.trans ih.2⟩

theorem create_returned_inv {dbg : Bool} {L : value_type_layout} {addr N : Nat}
    {s0 : unscoped_stack_vector T}
    (h : (create dbg L addr N : outcome ε (unscoped_stack_vector T) Unit)
      = outcome.returned s0 ()) : s0 = initialized L addr N := by
  unfold create at h
  simp only at h
  split at h
  · cases h
  · split at h
    · cases h
    · split at h
      · cases h
      · cases h
        rfl

theorem push_back_defaults_frame (dbg mc : Bool) (ctor : value_category → T → Except ε (T × T))
    (default_ctor : Except ε T) (n : Nat) :
    ∀ self s1 : unscoped_stack_vector T,
      (push_back_defaults dbg mc ctor default_ctor n self).final_state = some s1 →
      s1.m_max_size = self.m_max_size ∧ s1.m_data = self.m_data := by
  induction n with
  | zero =>
      intro self s1 h
      simp only [push_back_defaults, outcome.final_state, Option.some.injEq] at h
      subst h
      exact ⟨rfl, rfl⟩
  | succ n ih =>
      intro self s1 h
      cases hd : default_ctor with
      | error e =>
          simp only [push_back_defaults, hd, outcome.final_state, Option.some.injEq] at h
          subst h
          exact ⟨rfl, rfl⟩
      | ok tmp =>
          simp only [push_back_defaults, hd] at h
          cases hp : push_back dbg mc ctor self value_category.rvalue tmp with
          | returned s2 src =>
              have hf : (push_back dbg mc ctor self value_category.rvalue tmp).final_state
                  = some s2 := by rw [hp]; rfl
              obtain ⟨h1, h2, _⟩ := push_back_final_state hf
              rw [hp] at h
              simp only [outcome.bind] at h
              rw [← hd] at h
              obtain ⟨h3, h4⟩ := ih s2 s1 h
              exact ⟨h3.trans h1, h4.trans h2⟩
          | thrown e s2 =>
              have hf : (push_back dbg mc ctor self value_category.rvalue tmp).final_state
                  = some s2 := by rw [hp]; rfl
              obtain ⟨h1, h2, _⟩ := push_back_final_state hf
              rw [hp] at h
              simp only [outcome.bind, outcome.final_state, Option.some.injEq] at h
              subst h
              exact ⟨h1, h2⟩
          | assert_failed =>
              rw [hp] at h
              cases h
          | undefined =>
              rw [hp] at h
              cases h
          | terminated =>
              rw [hp] at h
              cases h

theorem create_initial_size_frame {dbg mc : Bool} {L : value_type_layout}
    {ctor : value_category → T → Except ε (T × T)} {default_ctor : Except ε T}
    {nothrow_default : Bool} {addr N K : Nat} {s0 : unscoped_stack_vector T}
    (h : create_initial_size dbg mc L ctor default_ctor nothrow_default addr N K
      = outcome.returned s0 ()) :
    s0.max_size = N ∧ s0.data = addr := by
  unfold create_initial_size at h
  replace h := noexcept_if_eq_returned h
  cases hc : (create dbg L addr N : outcome ε (unscoped_stack_vector T) Unit) with
  | returned s u =>
      rw [hc] at h
      simp only [outcome.bind] at h
      have hs := create_returned_inv hc
      split at h
      · cases h
      · have hf : (push_back_defaults dbg mc ctor default_ctor K s).final_state = some s0 := by
          rw [h]; rfl
        obtain ⟨h1, h2⟩ := push_back_defaults_frame dbg mc ctor default_ctor K s s0 hf
        rw [hs] at h1 h2
        exact ⟨h1, h2⟩
  | thrown e s => rw [hc] at h; cases h
  | assert_failed => rw [hc] at h; cases h
  | undefined => rw [hc] at h; cases h
  | terminated => rw [hc] at h; cases h

/-- C17: when either constructor has returned a container for capacity N at
the address `alloca` gave, `max_size()` is N and `data()` is that address, and
they still are in every state the container goes through under any sequence
of `operator[]`, `at`, `front`, `back`, `push_back`, `pop_back` and
`emplace_back` calls, made with or without their preconditions, that return
or throw; each further such call leaves both unchanged.  `size()`,
`max_size()` and `data()` only read the object. -/
theorem capacity_and_storage_fixed (dbg mc : Bool) (L : value_type_layout)
    (ctor : value_category → T → Except ε (T × T)) (default_ctor : Except ε T)
    (nothrow_default : Bool) (from_args : A → Except ε T) (args_noexcept : Bool)
    (addr N K : Nat) (s0 s : unscoped_stack_vector T)
    (hstart : (create dbg L addr N : outcome ε (unscoped_stack_vector T) Unit)
        = outcome.returned s0 () ∨
      create_initial_size dbg mc L ctor default_ctor nothrow_default addr N K
        = outcome.returned s0 ())
    (hlife : lifetime dbg mc ctor from_args args_noexcept s0 s) :
    s0.max_size = N ∧ s0.data = addr ∧ s.max_size = N ∧ s.data = addr ∧
    ∀ (c : member_call T A) (s1 : unscoped_stack_vector T),
      state_after dbg mc ctor from_args args_noexcept s c = some s1 →
      s1.max_size = N ∧ s1.data = addr := by
  have h0 : s0.max_size = N ∧ s0.data = addr := by
    rcases hstart with h | h
    · rw [create_returned_inv h]
      exact ⟨rfl, rfl⟩
    · exact create_initial_size_frame h
  obtain ⟨h1, h2⟩ := lifetime_frame hlife
  refine ⟨h0.1, h0.2, h1.trans h0.1, h2.trans h0.2, ?_⟩
  intro c s1 hc
  obtain ⟨h3, h4⟩ := state_after_frame c hc
  exact ⟨h3.trans (h1.trans h0.1), h4.trans (h2.trans h0.2)⟩

/-- Witness for C17: a container of capacity 1 on which `push_back(42)`
returned. -/
theorem capacity_and_storage_fixed_witness :
    (initialized uint64_layout 4096 1 : unscoped_stack_vector Nat).max_size = 1 ∧
    (initialized uint64_layout 4096 1 : unscoped_stack_vector Nat).data = 4096 ∧
    (pushed (initialized uint64_layout 4096 1) 42 : unscoped_stack_vector Nat).max_size = 1 ∧
    (pushed (initialized uint64_layout 4096 1) 42 : unscoped_stack_vector Nat).data = 4096 ∧
    ∀ (c : member_call Nat (Nat × Nat)) (s1 : unscoped_stack_vector Nat),
      state_after true true scalar_ctor base_from_args false
        (pushed (initialized uint64_layout 4096 1) 42) c = some s1 →
      s1.max_size = 1 ∧ s1.data = 4096 :=
  capacity_and_storage_fixed true true uint64_layout scalar_ctor (Except.ok 0) true
    base_from_args false
    4096 1 0 (initialized uint64_layout 4096 1) (pushed (initialized uint64_layout 4096 1) 42)
    (Or.inl (by decide))
    (lifetime.call (member_call.push_back value_category.rvalue 42) lifetime.start
      (by decide))

/-- C18, counterexample: `create(2^61 + 1)` for `uint64_t` (8 bytes each),
with the assertions in effect.  The product of `max_size` and
`sizeof(value_type)` is 2^64 + 8; computed in `size_type` it is 8, so 8 bytes
are requested and the block has room for one element, while `max_size()` is
2^61 + 1. -/
theorem alloca_request_wraps :
    (2 ^ 61 + 1) * uint64_layout.sizeof = 2 ^ 64 + 8 ∧
    alloca_request uint64_layout (2 ^ 61 + 1) = 8 ∧
    ∃ s, (create true uint64_layout 4096 (2 ^ 61 + 1) :
          outcome String (unscoped_stack_vector Nat) Unit) = outcome.returned s () ∧
      s.max_size = 2 ^ 61 + 1 ∧ s.memory.length = 1 ∧
      s.memory.length * uint64_layout.sizeof < s.max_size * uint64_layout.sizeof :=
  ⟨by decide, by decide, initialized uint64_layout 4096 (2 ^ 61 + 1), by decide, by decide,
    by decide, by decide⟩

/-- C18, amended: for every `max_size` > 0 (`alloca` returning non-null,
aligned storage) `create(max_size)` returns, having passed to `alloca` the
product of `max_size` and `sizeof(value_type)` reduced modulo 2^64, the
product as computed in `size_type`.  When the product is below 2^64 these
are exactly that many bytes and the block has room for `max_size` elements;
when it is not, fewer bytes are requested and the block has room for fewer
than `max_size` elements. -/
theorem create_reserves (dbg : Bool) (L : value_type_layout) (addr N : Nat)
    (hN : 0 < N) (hnull : addr ≠ 0) (halign : addr % L.alignof = 0) :
    ∃ s, (create dbg L addr N : outcome ε (unscoped_stack_vector T) Unit)
        = outcome.returned s () ∧
      alloca_request L N = (N * L.sizeof) % 2 ^ 64 ∧
      s.memory.length = alloca_request L N / L.sizeof ∧
      (N * L.sizeof < 2 ^ 64 → alloca_request L N = N * L.sizeof ∧ s.memory.length = N) ∧
      (2 ^ 64 ≤ N * L.sizeof → alloca_request L N < N * L.sizeof ∧ s.memory.length < N) := by
  refine ⟨initialized L addr N, create_returns dbg L addr N hN hnull halign, rfl,
    by simp [initialized], ?_, ?_⟩
  · intro hfit
    have hfit2 : N * L.sizeof < size_type_modulus := hfit
    refine ⟨Nat.mod_eq_of_lt hfit2, ?_⟩
    simp [initialized, alloca_request_cells L N hfit2]
  · intro hbig
    have hlt : alloca_request L N < N * L.sizeof := by
      unfold alloca_request
      calc (N * L.sizeof) % size_type_modulus < size_type_modulus :=
            Nat.mod_lt _ (by decide)
        _ ≤ N * L.sizeof := hbig
    refine ⟨hlt, ?_⟩
    simp only [initialized, List.length_replicate]
    exact (Nat.div_lt_iff_lt_mul L.sizeof_pos).2 hlt

/-- Witness for C18, amended: capacity 1000 of `uint64_t`. -/
theorem create_reserves_witness :
    ∃ s, (create true uint64_layout 4096 1000 : outcome String (unscoped_stack_vector Nat) Unit)
        = outcome.returned s () ∧
      alloca_request uint64_layout 1000 = 8000 ∧ s.memory.length = 1000 := by
  obtain ⟨s, h1, _, _, h4, _⟩ := create_reserves (T := Nat) (ε := String) true uint64_layout
    4096 1000 (by decide) (by decide) (by decide)
  exact ⟨s, h1, (h4 (by decide)).1, (h4 (by decide)).2⟩

end unscoped_stack_vector

/-- The assertions are in effect exactly when `NDEBUG` is not defined and the
switch is not defined as 0. -/
theorem assertions_active_iff (c : build_configuration) :
    assertions_active c = true ↔
      c.NDEBUG = false ∧ c.SBS_ENABLE_DEBUG_ASSERTIONS ≠ some 0 := by
  obtain ⟨sw, nd⟩ := c
  cases nd <;> cases sw <;>
    simp [assertions_active, guard_taken, assert_checks, switch_after_default]

/-- C20: what the code does.  With the switch forced on and `NDEBUG` defined,
the guarded blocks are compiled but `assert` expands to nothing: the
assertions are not in effect.  In the other configurations they are in
effect when the switch is forced on, or is not set while `NDEBUG` is not
defined, and are not in effect when the switch is 0, or is not set while
`NDEBUG` is defined. -/
theorem forced_switch_under_ndebug_is_inactive :
    guard_taken ⟨some 1, true⟩ = true ∧
    assert_checks ⟨some 1, true⟩ = false ∧
    assertions_active ⟨some 1, true⟩ = false ∧
    assertions_active ⟨some 1, false⟩ = true ∧
    assertions_active ⟨none, false⟩ = true ∧
    assertions_active ⟨none, true⟩ = false ∧
    assertions_active ⟨some 0, false⟩ = false ∧
    assertions_active ⟨some 0, true⟩ = false :=
  ⟨by decide, by decide, by decide, by decide, by decide, by decide, by decide, by decide⟩

end sbs

namespace sbs
namespace unscoped_stack_vector

variable {T D A ε : Type}

/-- In a container state with `size() < max_size()`, undoing a push gives back
the state the push started from, memory included. -/
theorem popped_pushed {self : unscoped_stack_vector T} (v : T)
    (hinv : invariant self) (hpre : self.size < self.max_size) :
    popped (pushed self v) = self := by
  obtain ⟨hmax, hle, hlen, hlive, hraw⟩ := hinv
  simp only [size, max_size] at hpre
  have hcell := memory_of_uninitialized_at (hraw self.m_size (Nat.le_refl _) hpre)
  have hmem : (self.memory.set self.m_size (slot.live v)).set self.m_size slot.uninitialized
      = self.memory := by
    rw [List.set_set]
    apply List.ext_getElem?
    intro n
    by_cases hn : n = self.m_size
    · subst hn
      rw [List.getElem?_set_self (by omega), hcell]
    · rw [List.getElem?_set_ne (Ne.symm hn)]
  cases self with
  | mk d m sz mem =>
      simp only [popped, pushed, Nat.add_sub_cancel] at hmem ⊢
      rw [hmem]

/-- C21: in a container state (one that satisfies the data-model invariant)
with `size() < max_size()`, `push_back` of an argument from which the selected
constructor builds `v` returns, the `pop_back()` that follows returns, having
destroyed `v` at the index of the old `size()`, and the container is then in
the state it was in before the two calls: same `size()`, same `max_size()`,
same `data()`, and every index below `size()` reads the same element. -/
theorem push_back_then_pop_back (dbg mc : Bool) (ctor : value_category → D → Except ε (T × D))
    (self : unscoped_stack_vector T) (cat : value_category) (data : D) (v : T) (src : D)
    (hinv : invariant self) (hpre : self.size < self.max_size)
    (hctor : ctor (forwarded mc cat) data = Except.ok (v, src)) :
    ∃ s1 s2, push_back dbg mc ctor self cat data = outcome.returned s1 src ∧
      (pop_back dbg s1 : outcome ε (unscoped_stack_vector T) (Nat × T))
        = outcome.returned s2 (self.size, v) ∧
      s2 = self ∧
      s2.size = self.size ∧ s2.max_size = self.max_size ∧ s2.data = self.data ∧
      ∀ i, i < self.size → ∃ w,
        (operator_subscript dbg self i : outcome ε (unscoped_stack_vector T) T)
          = outcome.returned self w ∧
        (operator_subscript dbg s2 i : outcome ε (unscoped_stack_vector T) T)
          = outcome.returned s2 w := by
  have hpush := push_back_returns dbg mc ctor self cat data v src hinv hpre hctor
  have hinv1 := invariant_pushed v hinv hpre
  have hpos : 0 < (pushed self v).size := by simp [size, pushed]
  obtain ⟨w, hw, hpop⟩ := pop_back_returns (ε := ε) dbg (pushed self v) hinv1 hpos
  have hidx : (pushed self v).size - 1 = self.size := by simp [size, pushed]
  have hlen : self.memory.length = self.m_max_size := hinv.2.2.1
  have hwv : w = v := by
    rw [hidx] at hw
    simp only [size, max_size] at hpre
    simp only [pushed, size] at hw
    rw [List.getElem?_set_self (by omega)] at hw
    cases hw
    rfl
  subst hwv
  have hback := popped_pushed w hinv hpre
  refine ⟨pushed self w, popped (pushed self w), hpush, ?_, hback, ?_, ?_, ?_, ?_⟩
  · rw [hpop, hidx]
  · rw [hback]
  · rw [hback]
  · rw [hback]
  · intro i hi
    obtain ⟨u, hu⟩ := memory_of_live_at (hinv.2.2.2.1 i hi)
    rw [hback]
    exact ⟨u, operator_subscript_of_memory dbg hi hu, operator_subscript_of_memory dbg hi hu⟩

/-- Witness for C21: `push_back(7)` and `pop_back()` on the container of
capacity 10 that holds 5, 4, 3. -/
theorem push_back_then_pop_back_witness :
    ∃ s1 s2, push_back true true scalar_ctor three_of_ten value_category.rvalue 7
        = outcome.returned s1 7 ∧
      (pop_back true s1 : outcome String (unscoped_stack_vector Nat) (Nat × Nat))
        = outcome.returned s2 (three_of_ten.size, 7) ∧
      s2 = three_of_ten ∧
      s2.size = three_of_ten.size ∧ s2.max_size = three_of_ten.max_size ∧
      s2.data = three_of_ten.data ∧
      ∀ i, i < three_of_ten.size → ∃ w,
        (operator_subscript true three_of_ten i : outcome String (unscoped_stack_vector Nat) Nat)
          = outcome.returned three_of_ten w ∧
        (operator_subscript true s2 i : outcome String (unscoped_stack_vector Nat) Nat)
          = outcome.returned s2 w :=
  push_back_then_pop_back true true scalar_ctor three_of_ten value_category.rvalue 7 7 7
    ⟨by decide, by decide, by decide, by decide, by decide⟩ (by decide) rfl

end unscoped_stack_vector
end sbs
